import Mathlib

/-!
Shallow embedding of the rrrlz steppable grid-pathfinding engine
(algo.h plus the fourteen algorithm plugins) and proofs of the
specification claims about it.

Conventions of the embedding:
* C `int` values are modelled as `Int`; no arithmetic in the verified
  paths overflows 32 bits, so the embedding is exact.
* C arrays are modelled as total functions `Int → α` together with the
  explicit size/count fields the source keeps; `upd` is a single store.
* C `while` loops are modelled by fuel-based recursion; the fuel chosen
  always dominates the loop's iteration count except where the source
  loop genuinely diverges (which is the subject of one claim).
* Fields, functions and constants keep the source names.
-/

set_option linter.unusedVariables false
set_option maxRecDepth 1000000

/-- C INT_MAX, the "unreached" sentinel used throughout the source. -/
def INT_MAX : Int := 2147483647

/-- Single array store: `upd a i v` is the array `a` with slot `i` set to `v`. -/
def upd {α : Type} (a : Int → α) (i : Int) (v : α) : Int → α :=
  fun j => if j = i then v else a j

/-- C integer division (truncation toward zero), as in `node / cols`. -/
def cdiv (a b : Int) : Int := Int.tdiv a b

/-- C integer remainder (truncation toward zero), as in `node % cols`. -/
def cmod (a b : Int) : Int := Int.tmod a b

/-- MAX_ROWS from algo.h. -/
def MAX_ROWS : Int := 100

/-- MAX_COLS from algo.h. -/
def MAX_COLS : Int := 100

/-- MAX_NODES from algo.h. -/
def MAX_NODES : Int := MAX_ROWS * MAX_COLS

/-- Row offsets DR[4] from algo.h. -/
def DR (d : Nat) : Int :=
  match d with
  | 0 => -1
  | 1 => 1
  | _ => 0

/-- Column offsets DC[4] from algo.h. -/
def DC (d : Nat) : Int :=
  match d with
  | 2 => -1
  | 3 => 1
  | _ => 0

/-- MapDef from algo.h: immutable grid descriptor. `data` is the flat
row-major passable/wall array (0 = passable, nonzero = wall). -/
structure MapDef where
  rows : Int
  cols : Int
  start_r : Int
  start_c : Int
  end_r : Int
  end_c : Int
  data : Int → Int

/-- Cell classification VIS_EMPTY from enum CellVis. -/
def VIS_EMPTY : Int := 0

/-- Cell classification VIS_WALL from enum CellVis. -/
def VIS_WALL : Int := 1

/-- Cell classification VIS_OPEN from enum CellVis. -/
def VIS_OPEN : Int := 2

/-- Cell classification VIS_CLOSED from enum CellVis. -/
def VIS_CLOSED : Int := 3

/-- Cell classification VIS_PATH from enum CellVis. -/
def VIS_PATH : Int := 4

/-- Cell classification VIS_START from enum CellVis. -/
def VIS_START : Int := 5

/-- Cell classification VIS_END from enum CellVis. -/
def VIS_END : Int := 6

/-- Modelled from the spec: the preprocessing cell classification used by
the RSR, Subgoal and CH plugins (the enum value itself is declared in a
revision of algo.h that is not under src/; spec section 3 lists
"preprocessing" as a cell classification). Any value distinct from the
seven above is faithful; we use the next enum slot. -/
def VIS_PREPROCESS : Int := 7

/-- AlgoVis from algo.h: the run state every algorithm state embeds. -/
structure AlgoVis where
  cells : Int → Int
  done : Int
  found : Int
  nodes_explored : Int
  steps : Int
  path_len : Int
  path_cost : Int
  relaxations : Int
  rows : Int
  cols : Int
  start_node : Int
  end_node : Int

/-- get_index from algo.h. -/
def get_index (cols r c : Int) : Int := r * cols + c

/-- manhattan from algo.h. -/
def manhattan (r c end_r end_c : Int) : Int :=
  let dr := r - end_r
  let dc := c - end_c
  (if dr < 0 then -dr else dr) + (if dc < 0 then -dc else dc)

/-- is_valid from algo.h: in bounds and not a wall. -/
def is_valid (map : MapDef) (r c : Int) : Bool :=
  decide (r ≥ 0) && decide (r < map.rows) && decide (c ≥ 0) && decide (c < map.cols)
    && decide (map.data (r * map.cols + c) = 0)

/-- vis_init_cells from algo.h: build the initial run state from a map.
The C version writes into a caller-provided struct whose other bytes the
callers have just zeroed; the embedding returns the resulting value. -/
def vis_init_cells (map : MapDef) : AlgoVis :=
  let total := map.rows * map.cols
  let start_node := get_index map.cols map.start_r map.start_c
  let end_node := get_index map.cols map.end_r map.end_c
  let base : Int → Int := fun i =>
    if 0 ≤ i ∧ i < total ∧ map.data i ≠ 0 then VIS_WALL else VIS_EMPTY
  { cells := upd (upd base start_node VIS_START) end_node VIS_END
    done := 0
    found := 0
    nodes_explored := 0
    steps := 0
    path_len := 0
    path_cost := 0
    relaxations := 0
    rows := map.rows
    cols := map.cols
    start_node := start_node
    end_node := end_node }

/-- Loop body of vis_trace_path from algo.h (`while (cur != -1)`),
fuel-bounded. -/
def vis_trace_go (parent : Int → Int) : Nat → Int → AlgoVis → AlgoVis
  | 0, _, vis => vis
  | fuel + 1, cur, vis =>
    if cur = -1 then vis
    else
      let vis :=
        if cur ≠ vis.start_node ∧ cur ≠ vis.end_node then
          { vis with cells := upd vis.cells cur VIS_PATH }
        else vis
      vis_trace_go parent fuel (parent cur) { vis with path_len := vis.path_len + 1 }

/-- vis_trace_path from algo.h: walk the parent chain from the end node,
marking path cells. The C loop is bounded by the parent chain; fuel
MAX_NODES + 1 dominates every acyclic chain. -/
def vis_trace_path (vis : AlgoVis) (parent cost : Int → Int) : AlgoVis :=
  vis_trace_go parent (MAX_NODES.toNat + 1) vis.end_node
    { vis with path_cost := cost vis.end_node }

/-- HeapEntry from algo.h. -/
structure HeapEntry where
  node : Int
  priority : Int

/-- Heap from algo.h: fixed-capacity binary min-heap. The C entry array
has MAX_NODES * 4 slots; the embedding keeps the total function and the
size, so the missing bounds check of heap_push is visible as writes at
indices ≥ capacity (claim C4). -/
structure Heap where
  data : Int → HeapEntry
  size : Int

/-- HEAP_CAP: the declared capacity MAX_NODES * 4 of Heap.data. -/
def HEAP_CAP : Int := MAX_NODES * 4

/-- heap_init from algo.h. -/
def heap_init : Heap := { data := fun _ => { node := 0, priority := 0 }, size := 0 }

/-- Sift-up loop of heap_push (`while (i > 0) ...`), fuel-bounded; the
index strictly decreases so fuel `i+1` dominates. -/
def heap_sift_up (a : Int → HeapEntry) : Nat → Int → (Int → HeapEntry)
  | 0, _ => a
  | fuel + 1, i =>
    if i > 0 then
      let p := cdiv (i - 1) 2
      if (a p).priority ≤ (a i).priority then a
      else heap_sift_up (upd (upd a i (a p)) p (a i)) fuel p
    else a

/-- heap_push from algo.h. Note: no capacity check, exactly as in the
source. -/
def heap_push (h : Heap) (node priority : Int) : Heap :=
  let i := h.size
  let a := upd h.data i { node := node, priority := priority }
  { data := heap_sift_up a (i.toNat + 1) i, size := h.size + 1 }

/-- Sift-down loop of heap_pop (`for (;;) ...`), fuel-bounded; the index
strictly increases and stays below size, so fuel `size` dominates. -/
def heap_sift_down (size : Int) (a : Int → HeapEntry) : Nat → Int → (Int → HeapEntry)
  | 0, _ => a
  | fuel + 1, i =>
    let l := 2 * i + 1
    let r := 2 * i + 2
    let s1 := if l < size ∧ (a l).priority < (a i).priority then l else i
    let s := if r < size ∧ (a r).priority < (a s1).priority then r else s1
    if s = i then a
    else heap_sift_down size (upd (upd a i (a s)) s (a i)) fuel s

/-- heap_pop from algo.h: return the root, move the last entry to the
root and sift it down. -/
def heap_pop (h : Heap) : HeapEntry × Heap :=
  let top := h.data 0
  let size := h.size - 1
  let a := upd h.data 0 (h.data size)
  (top, { data := heap_sift_down size a (size.toNat + 1) 0, size := size })

/-- Iterate a step function `n` times from a state, discarding the
returned booleans (the driver's `while` loop shape). -/
def runSteps {σ : Type} (step : σ → Bool × σ) (s : σ) : Nat → σ
  | 0 => s
  | n + 1 => runSteps step (step s).2 n

/-! ### Dijkstra (algo_dijkstra.c) -/

/-- DijkstraState from algo_dijkstra.c. -/
structure DijkstraState where
  vis : AlgoVis
  heap : Heap
  cost : Int → Int
  parent : Int → Int
  closed : Int → Int
  map : MapDef

/-- dijkstra_init from algo_dijkstra.c. -/
def dijkstra_init (map : MapDef) : DijkstraState :=
  let vis := vis_init_cells map
  let total := map.rows * map.cols
  let cost : Int → Int := fun i => if 0 ≤ i ∧ i < total then INT_MAX else 0
  let parent : Int → Int := fun i => if 0 ≤ i ∧ i < total then -1 else 0
  let start := vis.start_node
  { vis := vis
    heap := heap_push heap_init start 0
    cost := upd cost start 0
    parent := parent
    closed := fun _ => 0
    map := map }

/-- Neighbor relaxation body of dijkstra_step (one iteration of the
`for (d = 0; d < 4; d++)` loop). -/
def dijkstra_relax (node r c : Int) (s : DijkstraState) (d : Nat) : DijkstraState :=
  let nr := r + DR d
  let nc := c + DC d
  if !is_valid s.map nr nc then s
  else
    let neighbor := get_index s.vis.cols nr nc
    if s.closed neighbor ≠ 0 then s
    else
      let new_g := s.cost node + 1
      if new_g < s.cost neighbor then
        let s := { s with
          vis := { s.vis with relaxations := s.vis.relaxations + 1 }
          cost := upd s.cost neighbor new_g
          parent := upd s.parent neighbor node
          heap := heap_push s.heap neighbor new_g }
        if neighbor ≠ s.vis.start_node ∧ neighbor ≠ s.vis.end_node then
          { s with vis := { s.vis with cells := upd s.vis.cells neighbor VIS_OPEN } }
        else s
      else s

/-- dijkstra_step from algo_dijkstra.c. -/
def dijkstra_step (s : DijkstraState) : Bool × DijkstraState :=
  if s.vis.done ≠ 0 then (false, s)
  else if s.heap.size = 0 then (false, { s with vis := { s.vis with done := 1 } })
  else
    let pop := heap_pop s.heap
    let s := { s with heap := pop.2 }
    let node := pop.1.node
    let cols := s.vis.cols
    let r := cdiv node cols
    let c := cmod node cols
    let s := { s with vis := { s.vis with steps := s.vis.steps + 1 } }
    if s.closed node ≠ 0 then (true, s)
    else
      let s := { s with
        closed := upd s.closed node 1
        vis := { s.vis with nodes_explored := s.vis.nodes_explored + 1 } }
      let s :=
        if node ≠ s.vis.start_node ∧ node ≠ s.vis.end_node then
          { s with vis := { s.vis with cells := upd s.vis.cells node VIS_CLOSED } }
        else s
      if node = s.vis.end_node then
        (true, { s with vis := vis_trace_path { s.vis with done := 1, found := 1 } s.parent s.cost })
      else
        (true, (List.range 4).foldl (dijkstra_relax node r c) s)

/-! ### A* (algo_astar.c) -/

/-- AstarState from algo_astar.c. -/
structure AstarState where
  vis : AlgoVis
  heap : Heap
  cost : Int → Int
  parent : Int → Int
  closed : Int → Int
  map : MapDef

/-- astar_init from algo_astar.c. -/
def astar_init (map : MapDef) : AstarState :=
  let vis := vis_init_cells map
  let total := map.rows * map.cols
  let cost : Int → Int := fun i => if 0 ≤ i ∧ i < total then INT_MAX else 0
  let parent : Int → Int := fun i => if 0 ≤ i ∧ i < total then -1 else 0
  let start := vis.start_node
  { vis := vis
    heap := heap_push heap_init start (manhattan map.start_r map.start_c map.end_r map.end_c)
    cost := upd cost start 0
    parent := parent
    closed := fun _ => 0
    map := map }

/-- Neighbor relaxation body of astar_step. -/
def astar_relax (node r c : Int) (s : AstarState) (d : Nat) : AstarState :=
  let nr := r + DR d
  let nc := c + DC d
  if !is_valid s.map nr nc then s
  else
    let neighbor := get_index s.vis.cols nr nc
    if s.closed neighbor ≠ 0 then s
    else
      let new_g := s.cost node + 1
      if new_g < s.cost neighbor then
        let s := { s with
          vis := { s.vis with relaxations := s.vis.relaxations + 1 }
          cost := upd s.cost neighbor new_g
          parent := upd s.parent neighbor node
          heap := heap_push s.heap neighbor
            (new_g + manhattan nr nc s.map.end_r s.map.end_c) }
        if neighbor ≠ s.vis.start_node ∧ neighbor ≠ s.vis.end_node then
          { s with vis := { s.vis with cells := upd s.vis.cells neighbor VIS_OPEN } }
        else s
      else s

/-- astar_step from algo_astar.c. -/
def astar_step (s : AstarState) : Bool × AstarState :=
  if s.vis.done ≠ 0 then (false, s)
  else if s.heap.size = 0 then (false, { s with vis := { s.vis with done := 1 } })
  else
    let pop := heap_pop s.heap
    let s := { s with heap := pop.2 }
    let node := pop.1.node
    let cols := s.vis.cols
    let r := cdiv node cols
    let c := cmod node cols
    let s := { s with vis := { s.vis with steps := s.vis.steps + 1 } }
    if s.closed node ≠ 0 then (true, s)
    else
      let s := { s with
        closed := upd s.closed node 1
        vis := { s.vis with nodes_explored := s.vis.nodes_explored + 1 } }
      let s :=
        if node ≠ s.vis.start_node ∧ node ≠ s.vis.end_node then
          { s with vis := { s.vis with cells := upd s.vis.cells node VIS_CLOSED } }
        else s
      if node = s.vis.end_node then
        (true, { s with vis := vis_trace_path { s.vis with done := 1, found := 1 } s.parent s.cost })
      else
        (true, (List.range 4).foldl (astar_relax node r c) s)

/-! ### Jump Point Search (algo_jps.c) -/

/-- JPSState from algo_jps.c. -/
structure JPSState where
  vis : AlgoVis
  heap : Heap
  cost : Int → Int
  parent : Int → Int
  closed : Int → Int
  map : MapDef

/-- Loop body of jps_jump_iter (`for (;;) ...`), fuel-bounded: each
iteration advances one cell inside the grid, so MAX_ROWS + MAX_COLS
iterations dominate on any map within the engine's bounds. Returns the
jump point (or -1) and the state with intermediate cells colored. -/
def jps_jump_go (s : JPSState) (r c dr dc : Int) : Nat → Int → Int → Int × JPSState
  | 0, _, _ => (-1, s)
  | fuel + 1, cr, cc =>
    let map := s.map
    let cols := map.cols
    let nr := cr + dr
    let nc := cc + dc
    if !is_valid map nr nc then
      if (cr ≠ r ∨ cc ≠ c) ∧
          (is_valid map (cr + dc) (cc + (-dr)) ∨ is_valid map (cr + (-dc)) (cc + dr)) then
        (get_index cols cr cc, s)
      else (-1, s)
    else
      let idx := get_index cols nr nc
      let s :=
        if idx ≠ s.vis.start_node ∧ idx ≠ s.vis.end_node ∧ s.vis.cells idx = VIS_EMPTY then
          { s with vis := { s.vis with cells := upd s.vis.cells idx VIS_OPEN } }
        else s
      if idx = s.vis.end_node then (idx, s)
      else if is_valid map (nr + dc) (nc + (-dr)) ∧ !is_valid map (nr + dc - dr) (nc + (-dr) - dc) then
        (idx, s)
      else if is_valid map (nr + (-dc)) (nc + dr) ∧ !is_valid map (nr + (-dc) - dr) (nc + dr - dc) then
        (idx, s)
      else jps_jump_go s r c dr dc fuel nr nc

/-- jps_jump_iter from algo_jps.c: jump straight in direction (dr,dc)
from (r,c) until a wall, the goal or a forced neighbor. -/
def jps_jump_iter (s : JPSState) (r c dr dc : Int) : Int × JPSState :=
  jps_jump_go s r c dr dc ((MAX_ROWS + MAX_COLS).toNat + 2) r c

/-- jps_init from algo_jps.c. -/
def jps_init (map : MapDef) : JPSState :=
  let vis := vis_init_cells map
  let total := map.rows * map.cols
  let cost : Int → Int := fun i => if 0 ≤ i ∧ i < total then INT_MAX else 0
  let parent : Int → Int := fun i => if 0 ≤ i ∧ i < total then -1 else 0
  let start := vis.start_node
  { vis := vis
    heap := heap_push heap_init start (manhattan map.start_r map.start_c map.end_r map.end_c)
    cost := upd cost start 0
    parent := parent
    closed := fun _ => 0
    map := map }

/-- Loop body of jps_trace_path: fill the straight segment between a jump
point and its parent. -/
def jps_fill_go (sn en cols pr pc dr dc : Int) : Nat → Int → Int → AlgoVis → AlgoVis
  | 0, _, _, vis => vis
  | fuel + 1, ir, ic, vis =>
    if ir ≠ pr ∨ ic ≠ pc then
      let idx := get_index cols ir ic
      let vis :=
        if idx ≠ sn ∧ idx ≠ en then { vis with cells := upd vis.cells idx VIS_PATH }
        else vis
      jps_fill_go sn en cols pr pc dr dc fuel (ir + dr) (ic + dc)
        { vis with path_len := vis.path_len + 1 }
    else vis

/-- Outer loop of jps_trace_path (`while (cur != -1)`), fuel-bounded. -/
def jps_trace_go (s : JPSState) (cols : Int) : Nat → Int → AlgoVis → AlgoVis
  | 0, _, vis => vis
  | fuel + 1, cur, vis =>
    if cur = -1 then vis
    else
      let prev := s.parent cur
      let vis :=
        if prev ≠ -1 then
          let cr := cdiv cur cols
          let cc := cmod cur cols
          let pr := cdiv prev cols
          let pc := cmod prev cols
          let dr : Int := if cr < pr then 1 else if cr > pr then -1 else 0
          let dc : Int := if cc < pc then 1 else if cc > pc then -1 else 0
          jps_fill_go s.vis.start_node s.vis.end_node cols pr pc dr dc
            ((MAX_ROWS + MAX_COLS).toNat + 2) cr cc vis
        else { vis with path_len := vis.path_len + 1 }
      jps_trace_go s cols fuel prev vis

/-- jps_trace_path from algo_jps.c: walk parents from the end, filling the
straight segments between consecutive jump points. -/
def jps_trace_path (s : JPSState) : JPSState :=
  let cols := s.vis.cols
  let vis := { s.vis with path_cost := s.cost s.vis.end_node }
  { s with vis := jps_trace_go s cols (MAX_NODES.toNat + 1) s.vis.end_node vis }

/-- Jump-and-relax body of jps_step (one direction d). -/
def jps_relax (node r c : Int) (s : JPSState) (d : Nat) : JPSState :=
  let res := jps_jump_iter s r c (DR d) (DC d)
  let jp := res.1
  let s := res.2
  if jp < 0 then s
  else if s.closed jp ≠ 0 then s
  else
    let cols := s.vis.cols
    let jr := cdiv jp cols
    let jc := cmod jp cols
    let jump_cost : Int :=
      if jr = r then (if jc > c then jc - c else c - jc) else (if jr > r then jr - r else r - jr)
    let new_g := s.cost node + jump_cost
    if new_g < s.cost jp then
      { s with
        vis := { s.vis with relaxations := s.vis.relaxations + 1 }
        cost := upd s.cost jp new_g
        parent := upd s.parent jp node
        heap := heap_push s.heap jp (new_g + manhattan jr jc s.map.end_r s.map.end_c) }
    else s

/-- jps_step from algo_jps.c. -/
def jps_step (s : JPSState) : Bool × JPSState :=
  if s.vis.done ≠ 0 then (false, s)
  else if s.heap.size = 0 then (false, { s with vis := { s.vis with done := 1 } })
  else
    let pop := heap_pop s.heap
    let s := { s with heap := pop.2 }
    let node := pop.1.node
    let cols := s.vis.cols
    let r := cdiv node cols
    let c := cmod node cols
    let s := { s with vis := { s.vis with steps := s.vis.steps + 1 } }
    if s.closed node ≠ 0 then (true, s)
    else
      let s := { s with
        closed := upd s.closed node 1
        vis := { s.vis with nodes_explored := s.vis.nodes_explored + 1 } }
      let s :=
        if node ≠ s.vis.start_node ∧ node ≠ s.vis.end_node then
          { s with vis := { s.vis with cells := upd s.vis.cells node VIS_CLOSED } }
        else s
      if node = s.vis.end_node then
        (true, jps_trace_path { s with vis := { s.vis with done := 1, found := 1 } })
      else
        (true, (List.range 4).foldl (jps_relax node r c) s)

/-! ### Theta* (algo_theta.c)

The 8-direction tables, euclidean100 and line_of_sight are declared in a
revision of algo.h that is not under src/; they are modelled from the
spec below. -/

/-- Modelled from the spec: row offsets DR8[8] for 8-connected expansion
(spec section 4.6); the first four entries are the cardinal DR table of
algo.h and the last four are the diagonals, as required by algo_theta.c's
`d >= 4` diagonal test. -/
def DR8 (d : Nat) : Int :=
  match d with
  | 0 => -1
  | 1 => 1
  | 2 => 0
  | 3 => 0
  | 4 => -1
  | 5 => -1
  | 6 => 1
  | _ => 1

/-- Modelled from the spec: column offsets DC8[8] matching DR8. -/
def DC8 (d : Nat) : Int :=
  match d with
  | 0 => 0
  | 1 => 0
  | 2 => -1
  | 3 => 1
  | 4 => -1
  | 5 => 1
  | 6 => -1
  | _ => 1

/-- Incremental integer square root: the largest root with
root * root ≤ n, found by counting up (fuel-bounded, n dominates). -/
def isqrt_go (n : Nat) : Nat → Nat → Nat
  | 0, root => root
  | fuel + 1, root =>
    if (root + 1) * (root + 1) ≤ n then isqrt_go n fuel (root + 1) else root

/-- Modelled from the spec: euclidean100, the Euclidean distance scaled by
100 and truncated to an integer ("Uses euclidean100 for costs (×100
integer to avoid floats)", algo_theta.c header comment; glossary:
h-cost "e.g. Manhattan or Euclidean distance"). -/
def euclidean100 (r c end_r end_c : Int) : Int :=
  let dr := r - end_r
  let dc := c - end_c
  let n := ((dr * dr + dc * dc) * 10000).toNat
  Int.ofNat (isqrt_go n n 0)

/-- Modelled from the spec: one Bresenham walk step shared by
line_of_sight and theta_trace_path (glossary: "Line-of-sight: an
unobstructed straight line between two cells, computed via a
rasterization test (Bresenham)"); mirrors the rasterization loop written
out in theta_trace_path. -/
def bres_next (dr dc sr sc : Int) (err ir ic : Int) : Int × Int × Int :=
  let e2 := 2 * err
  let err := if e2 > -dc then err - dc else err
  let ir := if e2 > -dc then ir + sr else ir
  let err2 := if e2 < dr then err + dr else err
  let ic := if e2 < dr then ic + sc else ic
  (err2, ir, ic)

/-- Modelled from the spec: fuel-bounded Bresenham line-of-sight test;
every visited cell (endpoints included) must be in bounds and passable. -/
def line_of_sight_go (map : MapDef) (r1 c1 dr dc sr sc : Int) :
    Nat → Int → Int → Int → Bool
  | 0, _, _, _ => false
  | fuel + 1, err, ir, ic =>
    if !(decide (ir ≥ 0) && decide (ir < map.rows) && decide (ic ≥ 0) &&
         decide (ic < map.cols)) then false
    else if map.data (ir * map.cols + ic) ≠ 0 then false
    else if ir = r1 ∧ ic = c1 then true
    else
      let nxt := bres_next dr dc sr sc err ir ic
      line_of_sight_go map r1 c1 dr dc sr sc fuel nxt.1 nxt.2.1 nxt.2.2

/-- Modelled from the spec: line_of_sight between cells (r0,c0) and
(r1,c1). -/
def line_of_sight (map : MapDef) (r0 c0 r1 c1 : Int) : Bool :=
  let dr := if r1 - r0 < 0 then -(r1 - r0) else r1 - r0
  let dc := if c1 - c0 < 0 then -(c1 - c0) else c1 - c0
  let sr : Int := if r0 < r1 then 1 else -1
  let sc : Int := if c0 < c1 then 1 else -1
  line_of_sight_go map r1 c1 dr dc sr sc ((dr + dc).toNat + 2) (dr - dc) r0 c0

/-- ThetaState from algo_theta.c. -/
structure ThetaState where
  vis : AlgoVis
  map : MapDef
  heap : Heap
  cost : Int → Int
  parent : Int → Int
  closed : Int → Int

/-- theta_init from algo_theta.c. -/
def theta_init (map : MapDef) : ThetaState :=
  let vis := vis_init_cells map
  let total := map.rows * map.cols
  let cost : Int → Int := fun i => if 0 ≤ i ∧ i < total then INT_MAX else 0
  let parent : Int → Int := fun i => if 0 ≤ i ∧ i < total then -1 else 0
  let start := vis.start_node
  let h := euclidean100 map.start_r map.start_c map.end_r map.end_c
  { vis := vis
    map := map
    heap := heap_push heap_init start h
    cost := upd cost start 0
    parent := parent
    closed := fun _ => 0 }

/-- Rasterization loop of theta_trace_path for one parent segment,
fuel-bounded (`while (ir != cr || ic != cc)`). -/
def theta_fill_go (sn en cols cr cc dr dc sr sc : Int) :
    Nat → Int → Int → Int → AlgoVis → AlgoVis
  | 0, _, _, _, vis => vis
  | fuel + 1, err, ir, ic, vis =>
    if ir ≠ cr ∨ ic ≠ cc then
      let idx := get_index cols ir ic
      let vis :=
        if idx ≠ sn ∧ idx ≠ en then { vis with cells := upd vis.cells idx VIS_PATH }
        else vis
      let vis := { vis with path_len := vis.path_len + 1 }
      let nxt := bres_next dr dc sr sc err ir ic
      theta_fill_go sn en cols cr cc dr dc sr sc fuel nxt.1 nxt.2.1 nxt.2.2 vis
    else vis

/-- Outer loop of theta_trace_path (`while (cur != -1)`), fuel-bounded. -/
def theta_trace_go (s : ThetaState) (cols : Int) : Nat → Int → AlgoVis → AlgoVis
  | 0, _, vis => vis
  | fuel + 1, cur, vis =>
    if cur = -1 then vis
    else
      let prev := s.parent cur
      let vis :=
        if prev ≠ -1 then
          let cr := cdiv cur cols
          let cc := cmod cur cols
          let pr := cdiv prev cols
          let pc := cmod prev cols
          let dr := if cr - pr < 0 then -(cr - pr) else cr - pr
          let dc := if cc - pc < 0 then -(cc - pc) else cc - pc
          let sr : Int := if pr < cr then 1 else -1
          let sc : Int := if pc < cc then 1 else -1
          theta_fill_go s.vis.start_node s.vis.end_node cols cr cc dr dc sr sc
            ((MAX_ROWS + MAX_COLS).toNat + 2) (dr - dc) pr pc vis
        else { vis with path_len := vis.path_len + 1 }
      theta_trace_go s cols fuel prev vis

/-- theta_trace_path from algo_theta.c: walk parents (which may skip
cells) and rasterize each segment with Bresenham. -/
def theta_trace_path (s : ThetaState) : ThetaState :=
  let cols := s.vis.cols
  let vis := { s.vis with path_cost := s.cost s.vis.end_node }
  { s with vis := theta_trace_go s cols (MAX_NODES.toNat + 1) s.vis.end_node vis }

/-- Neighbor relaxation body of theta_step (one of the 8 directions). -/
def theta_relax (node r c : Int) (s : ThetaState) (d : Nat) : ThetaState :=
  let cols := s.vis.cols
  let nr := r + DR8 d
  let nc := c + DC8 d
  if !(decide (nr ≥ 0) && decide (nr < s.map.rows) && decide (nc ≥ 0) &&
       decide (nc < s.map.cols)) then s
  else if s.map.data (nr * cols + nc) ≠ 0 then s
  else if d ≥ 4 ∧ (s.map.data ((r + DR8 d) * cols + c) ≠ 0 ∨
                   s.map.data (r * cols + (c + DC8 d)) ≠ 0) then s
  else
    let neighbor := get_index cols nr nc
    if s.closed neighbor ≠ 0 then s
    else
      let par := s.parent node
      let shortcut :=
        if par ≥ 0 then
          let pr := cdiv par cols
          let pc := cmod par cols
          if line_of_sight s.map pr pc nr nc then
            let new_g := s.cost par + euclidean100 pr pc nr nc
            if new_g < s.cost neighbor then
              some ({ s with
                vis := { s.vis with relaxations := s.vis.relaxations + 1 }
                cost := upd s.cost neighbor new_g
                parent := upd s.parent neighbor par
                heap := heap_push s.heap neighbor
                  (new_g + euclidean100 nr nc s.map.end_r s.map.end_c) })
            else none
          else none
        else none
      match shortcut with
      | some s =>
        if neighbor ≠ s.vis.start_node ∧ neighbor ≠ s.vis.end_node then
          { s with vis := { s.vis with cells := upd s.vis.cells neighbor VIS_OPEN } }
        else s
      | none =>
        let new_g := s.cost node + euclidean100 r c nr nc
        if new_g < s.cost neighbor then
          let s := { s with
            vis := { s.vis with relaxations := s.vis.relaxations + 1 }
            cost := upd s.cost neighbor new_g
            parent := upd s.parent neighbor node
            heap := heap_push s.heap neighbor
              (new_g + euclidean100 nr nc s.map.end_r s.map.end_c) }
          if neighbor ≠ s.vis.start_node ∧ neighbor ≠ s.vis.end_node then
            { s with vis := { s.vis with cells := upd s.vis.cells neighbor VIS_OPEN } }
          else s
        else s

/-- theta_step from algo_theta.c. -/
def theta_step (s : ThetaState) : Bool × ThetaState :=
  if s.vis.done ≠ 0 then (false, s)
  else if s.heap.size = 0 then (false, { s with vis := { s.vis with done := 1 } })
  else
    let pop := heap_pop s.heap
    let s := { s with heap := pop.2 }
    let node := pop.1.node
    let cols := s.vis.cols
    let r := cdiv node cols
    let c := cmod node cols
    let s := { s with vis := { s.vis with steps := s.vis.steps + 1 } }
    if s.closed node ≠ 0 then (true, s)
    else
      let s := { s with
        closed := upd s.closed node 1
        vis := { s.vis with nodes_explored := s.vis.nodes_explored + 1 } }
      let s :=
        if node ≠ s.vis.start_node ∧ node ≠ s.vis.end_node then
          { s with vis := { s.vis with cells := upd s.vis.cells node VIS_CLOSED } }
        else s
      if node = s.vis.end_node then
        (true, theta_trace_path { s with vis := { s.vis with done := 1, found := 1 } })
      else
        (true, (List.range 8).foldl (theta_relax node r c) s)

/-! ### Bidirectional A* (algo_anya.c) -/

/-- BiAstarState from algo_anya.c. -/
structure BiAstarState where
  vis : AlgoVis
  map : MapDef
  fwd_heap : Heap
  bwd_heap : Heap
  fwd_cost : Int → Int
  bwd_cost : Int → Int
  fwd_parent : Int → Int
  bwd_parent : Int → Int
  fwd_closed : Int → Int
  bwd_closed : Int → Int
  mu : Int
  meet_node : Int
  fwd_turn : Int

/-- bidir_init from algo_anya.c. -/
def bidir_init (map : MapDef) : BiAstarState :=
  let vis := vis_init_cells map
  let total := map.rows * map.cols
  let inf : Int → Int := fun i => if 0 ≤ i ∧ i < total then INT_MAX else 0
  let neg : Int → Int := fun i => if 0 ≤ i ∧ i < total then -1 else 0
  let start := vis.start_node
  let goal := vis.end_node
  let h_fwd := manhattan map.start_r map.start_c map.end_r map.end_c
  { vis := vis
    map := map
    fwd_heap := heap_push heap_init start h_fwd
    bwd_heap := heap_push heap_init goal h_fwd
    fwd_cost := upd inf start 0
    bwd_cost := upd inf goal 0
    fwd_parent := neg
    bwd_parent := neg
    fwd_closed := fun _ => 0
    bwd_closed := fun _ => 0
    mu := INT_MAX
    meet_node := -1
    fwd_turn := 1 }

/-- Forward-relaxation body of bidir_step. -/
def bidir_fwd_relax (node r c : Int) (s : BiAstarState) (d : Nat) : BiAstarState :=
  let nr := r + DR d
  let nc := c + DC d
  if !is_valid s.map nr nc then s
  else
    let neighbor := get_index s.vis.cols nr nc
    if s.fwd_closed neighbor ≠ 0 then s
    else
      let new_g := s.fwd_cost node + 1
      if new_g < s.fwd_cost neighbor then
        { s with
          vis := { s.vis with relaxations := s.vis.relaxations + 1 }
          fwd_cost := upd s.fwd_cost neighbor new_g
          fwd_parent := upd s.fwd_parent neighbor node
          fwd_heap := heap_push s.fwd_heap neighbor
            (new_g + manhattan nr nc s.map.end_r s.map.end_c) }
      else s

/-- Backward-relaxation body of bidir_step. -/
def bidir_bwd_relax (node r c : Int) (s : BiAstarState) (d : Nat) : BiAstarState :=
  let nr := r + DR d
  let nc := c + DC d
  if !is_valid s.map nr nc then s
  else
    let neighbor := get_index s.vis.cols nr nc
    if s.bwd_closed neighbor ≠ 0 then s
    else
      let new_g := s.bwd_cost node + 1
      if new_g < s.bwd_cost neighbor then
        { s with
          vis := { s.vis with relaxations := s.vis.relaxations + 1 }
          bwd_cost := upd s.bwd_cost neighbor new_g
          bwd_parent := upd s.bwd_parent neighbor node
          bwd_heap := heap_push s.bwd_heap neighbor
            (new_g + manhattan nr nc s.map.start_r s.map.start_c) }
      else s

/-- Path-trace loops of bidir_step's `found:` label, fuel-bounded. -/
def bidir_trace_fwd (parent : Int → Int) : Nat → Int → AlgoVis → AlgoVis
  | 0, _, vis => vis
  | fuel + 1, cur, vis =>
    if cur = -1 then vis
    else
      let vis :=
        if cur ≠ vis.start_node ∧ cur ≠ vis.end_node then
          { vis with cells := upd vis.cells cur VIS_PATH }
        else vis
      bidir_trace_fwd parent fuel (parent cur) { vis with path_len := vis.path_len + 1 }

/-- The `found:` label of bidir_step: set result fields and trace both
half-paths through the meeting node. -/
def bidir_found (s : BiAstarState) : Bool × BiAstarState :=
  let vis := { s.vis with done := 1, found := 1, path_cost := s.mu }
  let vis := bidir_trace_fwd s.fwd_parent (MAX_NODES.toNat + 1) s.meet_node vis
  let vis := bidir_trace_fwd s.bwd_parent (MAX_NODES.toNat + 1) (s.bwd_parent s.meet_node) vis
  (false, { s with vis := vis })

/-- Forward-expansion arm of bidir_step (the fwd_turn branch): pop the
forward heap, settle the node, check for a meeting and relax its
neighbors. -/
def bidir_expand_fwd (s : BiAstarState) : Bool × BiAstarState :=
  let cols := s.vis.cols
  let pop := heap_pop s.fwd_heap
  let s := { s with fwd_heap := pop.2, fwd_turn := 0 }
  let node := pop.1.node
  if s.fwd_closed node ≠ 0 then (true, s)
  else
    let s := { s with
      fwd_closed := upd s.fwd_closed node 1
      vis := { s.vis with nodes_explored := s.vis.nodes_explored + 1 } }
    let s :=
      if node ≠ s.vis.start_node ∧ node ≠ s.vis.end_node then
        { s with vis := { s.vis with cells := upd s.vis.cells node VIS_OPEN } }
      else s
    let s :=
      if s.bwd_cost node ≠ INT_MAX then
        let total_cost := s.fwd_cost node + s.bwd_cost node
        if total_cost < s.mu then { s with mu := total_cost, meet_node := node }
        else s
      else s
    let r := cdiv node cols
    let c := cmod node cols
    (true, (List.range 4).foldl (bidir_fwd_relax node r c) s)

/-- Backward-expansion arm of bidir_step, symmetric to
bidir_expand_fwd. -/
def bidir_expand_bwd (s : BiAstarState) : Bool × BiAstarState :=
  let cols := s.vis.cols
  let pop := heap_pop s.bwd_heap
  let s := { s with bwd_heap := pop.2, fwd_turn := 1 }
  let node := pop.1.node
  if s.bwd_closed node ≠ 0 then (true, s)
  else
    let s := { s with
      bwd_closed := upd s.bwd_closed node 1
      vis := { s.vis with nodes_explored := s.vis.nodes_explored + 1 } }
    let s :=
      if node ≠ s.vis.start_node ∧ node ≠ s.vis.end_node then
        { s with vis := { s.vis with cells := upd s.vis.cells node VIS_CLOSED } }
      else s
    let s :=
      if s.fwd_cost node ≠ INT_MAX then
        let total_cost := s.fwd_cost node + s.bwd_cost node
        if total_cost < s.mu then { s with mu := total_cost, meet_node := node }
        else s
      else s
    let r := cdiv node cols
    let c := cmod node cols
    (true, (List.range 4).foldl (bidir_bwd_relax node r c) s)

/-- bidir_step from algo_anya.c. -/
def bidir_step (s : BiAstarState) : Bool × BiAstarState :=
  if s.vis.done ≠ 0 then (false, s)
  else
    let s := { s with vis := { s.vis with steps := s.vis.steps + 1 } }
    let min_key := if s.fwd_heap.size > 0 ∧ (s.fwd_heap.data 0).priority < INT_MAX
      then (s.fwd_heap.data 0).priority else INT_MAX
    let min_key := if s.bwd_heap.size > 0 ∧ (s.bwd_heap.data 0).priority < min_key
      then (s.bwd_heap.data 0).priority else min_key
    if s.fwd_heap.size = 0 ∧ s.bwd_heap.size = 0 then
      if s.meet_node ≥ 0 then bidir_found { s with vis := { s.vis with done := 1 } }
      else (false, { s with vis := { s.vis with done := 1 } })
    else if min_key ≥ s.mu ∧ s.meet_node ≥ 0 then bidir_found s
    else if s.fwd_turn ≠ 0 ∧ s.fwd_heap.size > 0 then bidir_expand_fwd s
    else if s.bwd_heap.size > 0 then bidir_expand_bwd s
    else
      (true, { s with fwd_turn := if s.fwd_turn ≠ 0 then 0 else 1 })

/-! ### Contraction Hierarchies (algo_ch.c) -/

/-- Shortcut from algo_ch.c. -/
structure Shortcut where
  frm : Int
  tgt : Int
  cost : Int
  mid : Int

/-- MAX_SHORTCUTS from algo_ch.c. -/
def MAX_SHORTCUTS : Int := 40000

/-- MAX_CH_ADJ from algo_ch.c. -/
def MAX_CH_ADJ : Int := 16

/-- CHState from algo_ch.c. The two-dimensional C arrays up_adj, up_cost
and up_mid are curried functions (node, slot). -/
structure CHState where
  vis : AlgoVis
  map : MapDef
  level : Int → Int
  contracted : Int → Int
  shortcuts : Int → Shortcut
  shortcut_count : Int
  contract_order : Int
  phase : Int
  up_adj : Int → Int → Int
  up_cost : Int → Int → Int
  up_mid : Int → Int → Int
  up_count : Int → Int
  fwd_heap : Heap
  bwd_heap : Heap
  fwd_dist : Int → Int
  bwd_dist : Int → Int
  fwd_parent : Int → Int
  bwd_parent : Int → Int
  fwd_closed : Int → Int
  bwd_closed : Int → Int
  mu : Int
  meet_node : Int
  fwd_turn : Int
  total_nodes : Int

/-- ch_count_edges from algo_ch.c: degree of `node` among uncontracted
passable neighbors (in- and out-degree coincide on the grid). -/
def ch_count_edges (s : CHState) (node : Int) : Int × Int :=
  let cols := s.vis.cols
  let r := cdiv node cols
  let c := cmod node cols
  let deg := (List.range 4).foldl
    (fun acc d =>
      let nr := r + DR d
      let nc := c + DC d
      if !is_valid s.map nr nc then acc
      else
        let ni := get_index cols nr nc
        if s.contracted ni ≠ 0 then acc else acc + 1)
    0
  (deg, deg)

/-- Working data of the bounded BFS in witness_exists: the 64-slot queue
and distance arrays, the queue cursors, and the 64-slot visited list. -/
structure WitnessBFS where
  queue : Int → Int
  dist_q : Int → Int
  qfront : Int
  qback : Int
  visited : Int → Int
  visit_count : Int

/-- Neighbor-scan body of witness_exists (the `for (dd = 0; ...)` loop). -/
def witness_scan (s : CHState) (limit exclude cur d : Int) (w : WitnessBFS) : WitnessBFS :=
  let cols := s.vis.cols
  let cr := cdiv cur cols
  let cc := cmod cur cols
  (List.range 4).foldl
    (fun w dd =>
      let nr := cr + DR dd
      let nc := cc + DC dd
      if !is_valid s.map nr nc then w
      else
        let ni := get_index cols nr nc
        if ni = exclude ∨ s.contracted ni ≠ 0 then w
        else
          let nd := d + 1
          if nd > limit then w
          else
            let found := (List.range w.visit_count.toNat).foldl
              (fun f k => if w.visited (Int.ofNat k) = ni then true else f) false
            if found then w
            else
              let w :=
                if w.visit_count < 64 then
                  { w with visited := upd w.visited w.visit_count ni
                           visit_count := w.visit_count + 1 }
                else w
              if w.qback < 64 then
                { w with queue := upd w.queue w.qback ni
                         dist_q := upd w.dist_q w.qback nd
                         qback := w.qback + 1 }
              else w)
    w

/-- Main loop of witness_exists (`for (iter = 0; iter < 64 && qfront < qback;
iter++)`), written as recursion on the remaining iterations. -/
def witness_go (s : CHState) (v limit exclude : Int) : Nat → WitnessBFS → Bool
  | 0, _ => false
  | fuel + 1, w =>
    if ¬(w.qfront < w.qback) then false
    else
      let cur := w.queue w.qfront
      let d := w.dist_q w.qfront
      let w := { w with qfront := w.qfront + 1 }
      if cur = v ∧ d ≤ limit then true
      else if d ≥ 3 then witness_go s v limit exclude fuel w
      else witness_go s v limit exclude fuel (witness_scan s limit exclude cur d w)

/-- witness_exists from algo_ch.c: bounded BFS witness search from u tgt v
avoiding `exclude`, cost limit `limit`, at most 3 hops and 64 iterations. -/
def witness_exists (s : CHState) (u v limit exclude : Int) : Bool :=
  if u = v then true
  else
    witness_go s v limit exclude 64
      { queue := upd (fun _ => 0) 0 u
        dist_q := upd (fun _ => 0) 0 0
        qfront := 0
        qback := 1
        visited := fun _ => 0
        visit_count := 0 }

/-- Shortcut-need count of ch_find_next for one candidate node: the
number of uncontracted neighbor pairs with no 2-hop witness avoiding the
node. -/
def ch_shortcuts_needed (s : CHState) (i r c : Int) : Int :=
  let cols := s.vis.cols
  (List.range 4).foldl
    (fun acc d1 =>
      let nr1 := r + DR d1
      let nc1 := c + DC d1
      if !is_valid s.map nr1 nc1 then acc
      else
        let n1 := get_index cols nr1 nc1
        if s.contracted n1 ≠ 0 then acc
        else
          (List.range 4).foldl
            (fun acc d2 =>
              if d2 ≤ d1 then acc
              else
                let nr2 := r + DR d2
                let nc2 := c + DC d2
                if !is_valid s.map nr2 nc2 then acc
                else
                  let n2 := get_index cols nr2 nc2
                  if s.contracted n2 ≠ 0 then acc
                  else if !witness_exists s n1 n2 2 i then acc + 1
                  else acc)
            acc)
    0

/-- ch_find_next from algo_ch.c: the uncontracted passable node with the
lowest edge-difference (first minimum wins). -/
def ch_find_next (s : CHState) : Int :=
  let best := (List.range s.total_nodes.toNat).foldl
    (fun (best : Int × Int) k =>
      let i : Int := Int.ofNat k
      if s.contracted i ≠ 0 then best
      else if s.map.data i ≠ 0 then best
      else
        let deg := ch_count_edges s i
        let cols := s.vis.cols
        let r := cdiv i cols
        let c := cmod i cols
        let sn := ch_shortcuts_needed s i r c
        let diff := sn - (deg.1 + deg.2)
        if diff < best.2 then (i, diff) else best)
    (-1, INT_MAX)
  best.1

/-- add_up_edge from algo_ch.c. -/
def add_up_edge (s : CHState) (frm tgt cost mid : Int) : CHState :=
  if s.up_count frm < MAX_CH_ADJ then
    let k := s.up_count frm
    { s with
      up_adj := fun a b => if a = frm ∧ b = k then tgt else s.up_adj a b
      up_cost := fun a b => if a = frm ∧ b = k then cost else s.up_cost a b
      up_mid := fun a b => if a = frm ∧ b = k then mid else s.up_mid a b
      up_count := upd s.up_count frm (k + 1) }
  else s

/-- ch_init from algo_ch.c. -/
def ch_init (map : MapDef) : CHState :=
  let vis := vis_init_cells map
  let total := map.rows * map.cols
  let inf : Int → Int := fun i => if 0 ≤ i ∧ i < total then INT_MAX else 0
  let neg : Int → Int := fun i => if 0 ≤ i ∧ i < total then -1 else 0
  { vis := vis
    map := map
    level := fun _ => 0
    contracted := fun _ => 0
    shortcuts := fun _ => { frm := 0, tgt := 0, cost := 0, mid := 0 }
    shortcut_count := 0
    contract_order := 0
    phase := 0
    up_adj := fun _ _ => 0
    up_cost := fun _ _ => 0
    up_mid := fun _ _ => 0
    up_count := fun _ => 0
    fwd_heap := heap_init
    bwd_heap := heap_init
    fwd_dist := inf
    bwd_dist := inf
    fwd_parent := neg
    bwd_parent := neg
    fwd_closed := fun _ => 0
    bwd_closed := fun _ => 0
    mu := INT_MAX
    meet_node := -1
    fwd_turn := 1
    total_nodes := total }

/-- First adjacency slot of `frm` pointing at `tgt` with a shortcut mid
node (the scan loops of ch_unpack_path); none if every matching edge is
original. -/
def ch_scan_mid (s : CHState) (frm tgt : Int) : Option Int :=
  (List.range (s.up_count frm).toNat).foldl
    (fun acc k =>
      match acc with
      | some m => some m
      | none =>
        if s.up_adj frm (Int.ofNat k) = tgt ∧ s.up_mid frm (Int.ofNat k) ≥ 0 then
          some (s.up_mid frm (Int.ofNat k))
        else none)
    none

/-- ch_unpack_path from algo_ch.c: recursively unpack a (possibly
shortcut) edge into its constituent original edges, marking cells. The C
recursion is bounded by the hierarchy depth; the fuel dominates it on
every reachable state. -/
def ch_unpack_path (s : CHState) : Nat → Int → Int → CHState
  | 0, _, _ => s
  | fuel + 1, frm, tgt =>
    match ch_scan_mid s frm tgt with
    | some mid =>
      let s := ch_unpack_path s fuel frm mid
      ch_unpack_path s fuel mid tgt
    | none =>
      match ch_scan_mid s tgt frm with
      | some mid =>
        let s := ch_unpack_path s fuel frm mid
        ch_unpack_path s fuel mid tgt
      | none =>
        let s :=
          if tgt ≠ s.vis.start_node ∧ tgt ≠ s.vis.end_node then
            { s with vis := { s.vis with cells := upd s.vis.cells tgt VIS_PATH } }
          else s
        { s with vis := { s.vis with path_len := s.vis.path_len + 1 } }

/-- Shortcut-recording loop run when a node is contracted (the d1/d2
double loop of ch_step phase 0). -/
def ch_record_shortcuts (node r c : Int) (s : CHState) : CHState :=
  let cols := s.vis.cols
  (List.range 4).foldl
    (fun s d1 =>
      let nr1 := r + DR d1
      let nc1 := c + DC d1
      if !is_valid s.map nr1 nc1 then s
      else
        let n1 := get_index cols nr1 nc1
        if s.contracted n1 ≠ 0 then s
        else
          (List.range 4).foldl
            (fun s d2 =>
              if d2 ≤ d1 then s
              else
                let nr2 := r + DR d2
                let nc2 := c + DC d2
                if !is_valid s.map nr2 nc2 then s
                else
                  let n2 := get_index cols nr2 nc2
                  if s.contracted n2 ≠ 0 then s
                  else if !witness_exists s n1 n2 2 node ∧ s.shortcut_count < MAX_SHORTCUTS then
                    { s with
                      shortcuts := upd s.shortcuts s.shortcut_count
                        { frm := n1, tgt := n2, cost := 2, mid := node }
                      shortcut_count := s.shortcut_count + 1 }
                  else s)
            s)
    s

/-- The phase transition taken when ch_find_next finds nothing left tgt
contract: seed the bidirectional search and promote original grid edges
into the upward graph. -/
def ch_begin_search (s : CHState) : CHState :=
  let cols := s.vis.cols
  let s := { s with
    phase := 1
    fwd_dist := upd s.fwd_dist s.vis.start_node 0
    bwd_dist := upd s.bwd_dist s.vis.end_node 0
    fwd_heap := heap_push s.fwd_heap s.vis.start_node 0
    bwd_heap := heap_push s.bwd_heap s.vis.end_node 0
    fwd_turn := 1 }
  (List.range s.total_nodes.toNat).foldl
    (fun s k =>
      let i : Int := Int.ofNat k
      if s.map.data i ≠ 0 then s
      else
        let ir := cdiv i cols
        let ic := cmod i cols
        (List.range 4).foldl
          (fun s d =>
            let nr := ir + DR d
            let nc := ic + DC d
            if !is_valid s.map nr nc then s
            else
              let ni := get_index cols nr nc
              if s.level ni > s.level i then add_up_edge s i ni 1 (-1) else s)
          s)
    s

/-- Batch-contraction loop of ch_step phase 0 (`for (b = 0; b < batch;
b++)`, with the early `return` when everything is contracted). -/
def ch_contract_batch (s : CHState) : Nat → CHState
  | 0 => s
  | b + 1 =>
    let node := ch_find_next s
    if node < 0 then ch_begin_search s
    else
      let cols := s.vis.cols
      let s := { s with
        contracted := upd s.contracted node 1
        level := upd s.level node s.contract_order
        contract_order := s.contract_order + 1 }
      let s :=
        if node ≠ s.vis.start_node ∧ node ≠ s.vis.end_node then
          { s with vis := { s.vis with cells := upd s.vis.cells node VIS_PREPROCESS } }
        else s
      let r := cdiv node cols
      let c := cmod node cols
      let s := ch_record_shortcuts node r c s
      let s := { s with vis := { s.vis with nodes_explored := s.vis.nodes_explored + 1 } }
      ch_contract_batch s b

/-- Upward relaxation of ch_step phase 2 (forward direction). -/
def ch_fwd_relax (node : Int) (s : CHState) : CHState :=
  (List.range (s.up_count node).toNat).foldl
    (fun s k =>
      let i : Int := Int.ofNat k
      let nb := s.up_adj node i
      let nc := s.fwd_dist node + s.up_cost node i
      if nc < s.fwd_dist nb then
        { s with
          vis := { s.vis with relaxations := s.vis.relaxations + 1 }
          fwd_dist := upd s.fwd_dist nb nc
          fwd_parent := upd s.fwd_parent nb node
          fwd_heap := heap_push s.fwd_heap nb nc }
      else s)
    s

/-- Upward relaxation of ch_step phase 2 (backward direction). -/
def ch_bwd_relax (node : Int) (s : CHState) : CHState :=
  (List.range (s.up_count node).toNat).foldl
    (fun s k =>
      let i : Int := Int.ofNat k
      let nb := s.up_adj node i
      let nc := s.bwd_dist node + s.up_cost node i
      if nc < s.bwd_dist nb then
        { s with
          vis := { s.vis with relaxations := s.vis.relaxations + 1 }
          bwd_dist := upd s.bwd_dist nb nc
          bwd_parent := upd s.bwd_parent nb node
          bwd_heap := heap_push s.bwd_heap nb nc }
      else s)
    s

/-- Forward half of the ch_step `found_path:` unpacking
(`while (s->fwd_parent[cur] >= 0)`), fuel-bounded. -/
def ch_fwd_unpack_loop (s : CHState) : Nat → Int → CHState
  | 0, _ => s
  | fuel + 1, cur =>
    if s.fwd_parent cur ≥ 0 then
      let s' := ch_unpack_path s (MAX_NODES.toNat + 1) (s.fwd_parent cur) cur
      ch_fwd_unpack_loop s' fuel (s.fwd_parent cur)
    else s

/-- Backward half of the ch_step `found_path:` unpacking
(`while (s->bwd_parent[cur] >= 0)`), fuel-bounded. -/
def ch_bwd_unpack_loop (s : CHState) : Nat → Int → CHState
  | 0, _ => s
  | fuel + 1, cur =>
    if s.bwd_parent cur ≥ 0 then
      let s' := ch_unpack_path s (MAX_NODES.toNat + 1) cur (s.bwd_parent cur)
      ch_bwd_unpack_loop s' fuel (s.bwd_parent cur)
    else s

/-- The `found_path:` label of ch_step: set result fields, unpack the
forward half-path then the backward half-path. -/
def ch_found_path (s : CHState) : Bool × CHState :=
  let s := { s with vis := { s.vis with done := 1, found := 1, path_cost := s.mu } }
  let s := ch_fwd_unpack_loop s (MAX_NODES.toNat + 1) s.meet_node
  let s := { s with vis := { s.vis with path_len := s.vis.path_len + 1 } }
  let s := ch_bwd_unpack_loop s (MAX_NODES.toNat + 1) s.meet_node
  (false, s)

/-- Query-phase expansion of ch_step: alternate between the forward and
backward upward searches, popping and settling one node. -/
def ch_query_expand (s : CHState) : CHState :=
  if s.fwd_turn ≠ 0 then
    let s := { s with fwd_turn := 0 }
    if s.fwd_heap.size > 0 then
      let pop := heap_pop s.fwd_heap
      let s := { s with fwd_heap := pop.2 }
      let node := pop.1.node
      if s.fwd_closed node = 0 then
        let s := { s with
          fwd_closed := upd s.fwd_closed node 1
          vis := { s.vis with nodes_explored := s.vis.nodes_explored + 1 } }
        let s :=
          if node ≠ s.vis.start_node ∧ node ≠ s.vis.end_node then
            { s with vis := { s.vis with cells := upd s.vis.cells node VIS_OPEN } }
          else s
        let s :=
          if s.bwd_dist node ≠ INT_MAX then
            let total_cost := s.fwd_dist node + s.bwd_dist node
            if total_cost < s.mu then { s with mu := total_cost, meet_node := node }
            else s
          else s
        ch_fwd_relax node s
      else s
    else s
  else
    let s := { s with fwd_turn := 1 }
    if s.bwd_heap.size > 0 then
      let pop := heap_pop s.bwd_heap
      let s := { s with bwd_heap := pop.2 }
      let node := pop.1.node
      if s.bwd_closed node = 0 then
        let s := { s with
          bwd_closed := upd s.bwd_closed node 1
          vis := { s.vis with nodes_explored := s.vis.nodes_explored + 1 } }
        let s :=
          if node ≠ s.vis.start_node ∧ node ≠ s.vis.end_node then
            { s with vis := { s.vis with cells := upd s.vis.cells node VIS_CLOSED } }
          else s
        let s :=
          if s.fwd_dist node ≠ INT_MAX then
            let total_cost := s.fwd_dist node + s.bwd_dist node
            if total_cost < s.mu then { s with mu := total_cost, meet_node := node }
            else s
          else s
        ch_bwd_relax node s
      else s
    else s

/-- Termination checks at the end of ch_step's query phase: finish when
both heaps are drained or the best pending key cannot beat the current
meeting cost. -/
def ch_phase2_finish (s : CHState) : Bool × CHState :=
  if s.fwd_heap.size = 0 ∧ s.bwd_heap.size = 0 then
    if s.meet_node ≥ 0 then ch_found_path s
    else (false, { s with vis := { s.vis with done := 1 } })
  else
    let min_key := if s.fwd_heap.size > 0 ∧ (s.fwd_heap.data 0).priority < INT_MAX
      then (s.fwd_heap.data 0).priority else INT_MAX
    let min_key := if s.bwd_heap.size > 0 ∧ (s.bwd_heap.data 0).priority < min_key
      then (s.bwd_heap.data 0).priority else min_key
    if min_key ≥ s.mu ∧ s.meet_node ≥ 0 then ch_found_path s
    else (true, s)

/-- ch_step from algo_ch.c. -/
def ch_step (s : CHState) : Bool × CHState :=
  if s.vis.done ≠ 0 then (false, s)
  else
    let s := { s with vis := { s.vis with steps := s.vis.steps + 1 } }
    if s.phase = 0 then
      let batch := cdiv s.total_nodes 50
      let batch := if batch < 10 then 10 else batch
      (true, ch_contract_batch s batch.toNat)
    else if s.phase = 1 then
      let s := (List.range s.shortcut_count.toNat).foldl
        (fun s k =>
          let sc := s.shortcuts (Int.ofNat k)
          let s := if s.level sc.tgt > s.level sc.frm then add_up_edge s sc.frm sc.tgt sc.cost sc.mid else s
          if s.level sc.frm > s.level sc.tgt then add_up_edge s sc.tgt sc.frm sc.cost sc.mid else s)
        s
      (true, { s with shortcut_count := 0, phase := 2 })
    else if s.phase = 2 then
      ch_phase2_finish (ch_query_expand s)
    else (false, s)

/-! ### D* Lite (algo_dstar_lite.c, embedded in visualizer.c) -/

/-- DStarState from algo_dstar_lite.c. `map_data` is the mutable copy of
the map's passable/wall array that replanning notifications update. -/
structure DStarState where
  vis : AlgoVis
  map : MapDef
  map_data : Int → Int
  heap : Heap
  g : Int → Int
  rhs : Int → Int
  parent : Int → Int
  in_heap : Int → Int
  km : Int
  phase : Int

/-- dstar_key from algo_dstar_lite.c: priority min(g,rhs) + heuristic to
the start + key modifier, with the INT_MAX sentinel preserved. -/
def dstar_key (s : DStarState) (node : Int) : Int :=
  let g := s.g node
  let rhs := s.rhs node
  let mn := if g < rhs then g else rhs
  if mn = INT_MAX then INT_MAX
  else
    let cols := s.vis.cols
    let r := cdiv node cols
    let c := cmod node cols
    let sr := cdiv s.vis.start_node cols
    let sc := cmod s.vis.start_node cols
    mn + manhattan r c sr sc + s.km

/-- dstar_update_node from algo_dstar_lite.c: recompute rhs as the best
successor lookahead, remember the best successor as parent, and lazily
re-queue the node if inconsistent. -/
def dstar_update_node (s : DStarState) (node : Int) : DStarState :=
  let cols := s.vis.cols
  let r := cdiv node cols
  let c := cmod node cols
  let s :=
    if node ≠ s.vis.end_node then
      let best := (List.range 4).foldl
        (fun (best : Int × Int) d =>
          let nr := r + DR d
          let nc := c + DC d
          if nr < 0 ∨ nr ≥ s.map.rows ∨ nc < 0 ∨ nc ≥ s.map.cols then best
          else
            let ni := get_index cols nr nc
            if s.map_data ni ≠ 0 then best
            else if s.g ni ≠ INT_MAX ∧ s.g ni + 1 < best.1 then (s.g ni + 1, ni)
            else best)
        (INT_MAX, -1)
      let s := { s with rhs := upd s.rhs node best.1 }
      if best.2 ≥ 0 then { s with parent := upd s.parent node best.2 } else s
    else s
  if s.g node ≠ s.rhs node then
    let key := dstar_key s node
    if key ≠ INT_MAX then
      { s with heap := heap_push s.heap node key, in_heap := upd s.in_heap node 1 }
    else s
  else s

/-- dstar_init from algo_dstar_lite.c. -/
def dstar_init (map : MapDef) : DStarState :=
  let vis := vis_init_cells map
  let total := map.rows * map.cols
  let inf : Int → Int := fun i => if 0 ≤ i ∧ i < total then INT_MAX else 0
  let neg : Int → Int := fun i => if 0 ≤ i ∧ i < total then -1 else 0
  let goal := vis.end_node
  let s : DStarState :=
    { vis := vis
      map := map
      map_data := fun i => if 0 ≤ i ∧ i < total then map.data i else 0
      heap := heap_init
      g := inf
      rhs := upd inf goal 0
      parent := neg
      in_heap := fun _ => 0
      km := 0
      phase := 0 }
  let key := dstar_key s goal
  { s with heap := heap_push s.heap goal key, in_heap := upd s.in_heap goal 1 }

/-- Successor selection of the dstar_step path trace: the in-bounds
passable neighbor of `cur` with minimal g (first minimum wins), or -1. -/
def dstar_best_neighbor (s : DStarState) (cur : Int) : Int :=
  let cols := s.vis.cols
  let cr := cdiv cur cols
  let cc := cmod cur cols
  let best := (List.range 4).foldl
    (fun (best : Int × Int) d =>
      let nr := cr + DR d
      let nc := cc + DC d
      if nr < 0 ∨ nr ≥ s.map.rows ∨ nc < 0 ∨ nc ≥ s.map.cols then best
      else
        let ni := get_index cols nr nc
        if s.map_data ni ≠ 0 then best
        else if s.g ni < best.1 then (s.g ni, ni)
        else best)
    (INT_MAX, -1)
  best.2

/-- Loop body of the dstar_step `trace_path:` label
(`while (cur_node != end && cur_node != -1)`), fuel-bounded. The C loop
has no other bound; on states where the minimal-g walk never reaches the
end node the C program loops forever (claim C3 exhibits such a state). -/
def dstar_trace_go (s : DStarState) : Nat → Int → AlgoVis → AlgoVis
  | 0, _, vis => vis
  | fuel + 1, cur, vis =>
    if cur ≠ vis.end_node ∧ cur ≠ -1 then
      let vis :=
        if cur ≠ vis.start_node ∧ cur ≠ vis.end_node then
          { vis with cells := upd vis.cells cur VIS_PATH }
        else vis
      let vis := { vis with path_len := vis.path_len + 1 }
      dstar_trace_go s fuel (dstar_best_neighbor s cur) vis
    else
      if cur = vis.end_node then { vis with path_len := vis.path_len + 1 } else vis

/-- The `trace_path:` label of dstar_step. -/
def dstar_trace_path (s : DStarState) : Bool × DStarState :=
  let vis := { s.vis with done := 1, found := 1, path_cost := s.g s.vis.start_node }
  (false, { s with vis := dstar_trace_go s (MAX_NODES.toNat + 1) s.vis.start_node vis })

/-- Expansion part of dstar_step: pop the top node, requeue it if its key
is stale, otherwise settle it as over- or under-consistent and update the
affected nodes. -/
def dstar_expand (s : DStarState) : Bool × DStarState :=
  let cols := s.vis.cols
  let pop := heap_pop s.heap
  let s := { s with heap := pop.2 }
  let node := pop.1.node
  let s := { s with in_heap := upd s.in_heap node 0 }
  let cur_key := dstar_key s node
  if pop.1.priority > cur_key ∧ s.g node ≠ s.rhs node then
    (true, { s with heap := heap_push s.heap node cur_key
                    in_heap := upd s.in_heap node 1 })
  else
    let s := { s with vis := { s.vis with nodes_explored := s.vis.nodes_explored + 1 } }
    let s :=
      if node ≠ s.vis.start_node ∧ node ≠ s.vis.end_node then
        { s with vis := { s.vis with cells := upd s.vis.cells node VIS_CLOSED } }
      else s
    let r := cdiv node cols
    let c := cmod node cols
    if s.g node > s.rhs node then
            let s := { s with g := upd s.g node (s.rhs node) }
            (true, (List.range 4).foldl
              (fun s d =>
                let nr := r + DR d
                let nc := c + DC d
                if nr < 0 ∨ nr ≥ s.map.rows ∨ nc < 0 ∨ nc ≥ s.map.cols then s
                else
                  let ni := get_index cols nr nc
                  if s.map_data ni ≠ 0 then s
                  else
                    let s := { s with vis := { s.vis with relaxations := s.vis.relaxations + 1 } }
                    let s := dstar_update_node s ni
                    if ni ≠ s.vis.start_node ∧ ni ≠ s.vis.end_node ∧
                        s.vis.cells ni ≠ VIS_CLOSED then
                      { s with vis := { s.vis with cells := upd s.vis.cells ni VIS_OPEN } }
                    else s)
              s)
          else
            let s := { s with g := upd s.g node INT_MAX }
            let s := dstar_update_node s node
            (true, (List.range 4).foldl
              (fun s d =>
                let nr := r + DR d
                let nc := c + DC d
                if nr < 0 ∨ nr ≥ s.map.rows ∨ nc < 0 ∨ nc ≥ s.map.cols then s
                else
                  let ni := get_index cols nr nc
                  if s.map_data ni ≠ 0 then s
                  else
                    let s := { s with vis := { s.vis with relaxations := s.vis.relaxations + 1 } }
                    dstar_update_node s ni)
              s)

/-- dstar_step from algo_dstar_lite.c. -/
def dstar_step (s : DStarState) : Bool × DStarState :=
  if s.vis.done ≠ 0 then (false, s)
  else
    let s := { s with vis := { s.vis with steps := s.vis.steps + 1 } }
    let start := s.vis.start_node
    if s.heap.size = 0 then
      if s.g start = s.rhs start ∧ s.g start ≠ INT_MAX then dstar_trace_path s
      else (false, { s with vis := { s.vis with done := 1 } })
    else
      let start_key := dstar_key s start
      if s.rhs start = s.g start ∧ s.g start ≠ INT_MAX ∧
          (s.heap.size = 0 ∨ (s.heap.data 0).priority ≥ start_key) then
        dstar_trace_path s
      else dstar_expand s

/-- Neighbor-refresh body of dstar_notify_change: recompute the rhs
lookahead of the in-bounds passable neighbor in direction `d`. -/
def dstar_notify_nb (r c cols : Int) (s : DStarState) (d : Nat) : DStarState :=
  let nr := r + DR d
  let nc := c + DC d
  if nr < 0 ∨ nr ≥ s.map.rows ∨ nc < 0 ∨ nc ≥ s.map.cols then s
  else
    let ni := get_index cols nr nc
    if s.map_data ni ≠ 0 then s
    else dstar_update_node s ni

/-- dstar_notify_change from algo_dstar_lite.c: invoked by the external
collaborator after it edits the mutable map copy at `node`; refreshes the
rhs lookahead of the changed node and its passable neighbors, clears the
result fields and downgrades path cells. -/
def dstar_notify_change (s : DStarState) (node : Int) : DStarState :=
  let cols := s.vis.cols
  let r := cdiv node cols
  let c := cmod node cols
  let s := (List.range 4).foldl (dstar_notify_nb r c cols) s
  let s := if s.map_data node = 0 then dstar_update_node s node else s
  let s := { s with vis := { s.vis with done := 0, found := 0, path_len := 0, path_cost := 0 } }
  let total := s.map.rows * s.map.cols
  { s with vis := { s.vis with cells := fun i =>
      if 0 ≤ i ∧ i < total ∧ s.vis.cells i = VIS_PATH then VIS_CLOSED else s.vis.cells i } }

/-! ### Bellman-Ford (algo_bellman_ford.c) -/

/-- Edge from algo_bellman_ford.c (directed, unit cost). -/
structure Edge where
  frm : Int
  tgt : Int

/-- MAX_EDGES from algo_bellman_ford.c. -/
def MAX_EDGES : Int := MAX_NODES * 4

/-- BellmanFordState from algo_bellman_ford.c. -/
structure BellmanFordState where
  vis : AlgoVis
  map : MapDef
  edges : Int → Edge
  edge_count : Int
  cost : Int → Int
  parent : Int → Int
  reached : Int → Int
  bf_iter : Int
  bf_changed : Int
  total_nodes : Int

/-- bellman_ford_init from algo_bellman_ford.c: build the directed edge
list over passable 4-neighbor pairs. -/
def bellman_ford_init (map : MapDef) : BellmanFordState :=
  let vis := vis_init_cells map
  let total := map.rows * map.cols
  let cols := map.cols
  let ed := (List.range map.rows.toNat).foldl
    (fun (acc : (Int → Edge) × Int) rk =>
      (List.range map.cols.toNat).foldl
        (fun acc ck =>
          let r : Int := Int.ofNat rk
          let c : Int := Int.ofNat ck
          if map.data (r * cols + c) ≠ 0 then acc
          else
            let u := get_index cols r c
            (List.range 4).foldl
              (fun (acc : (Int → Edge) × Int) d =>
                let nr := r + DR d
                let nc := c + DC d
                if !is_valid map nr nc then acc
                else
                  (upd acc.1 acc.2 { frm := u, tgt := get_index cols nr nc }, acc.2 + 1))
              acc)
        acc)
    (fun _ => { frm := 0, tgt := 0 }, 0)
  { vis := vis
    map := map
    edges := ed.1
    edge_count := ed.2
    cost := upd (fun i => if 0 ≤ i ∧ i < total then INT_MAX else 0) vis.start_node 0
    parent := fun i => if 0 ≤ i ∧ i < total then -1 else 0
    reached := upd (fun _ => 0) vis.start_node 1
    bf_iter := 0
    bf_changed := 0
    total_nodes := total }

/-- One edge relaxation of the bellman_ford_step full pass. -/
def bellman_ford_relax (s : BellmanFordState) (ei : Nat) : BellmanFordState :=
  let e := s.edges (Int.ofNat ei)
  if s.cost e.frm = INT_MAX then s
  else
    let new_cost := s.cost e.frm + 1
    if new_cost < s.cost e.tgt then
      let s := { s with
        vis := { s.vis with relaxations := s.vis.relaxations + 1 }
        cost := upd s.cost e.tgt new_cost
        parent := upd s.parent e.tgt e.frm
        bf_changed := 1 }
      let s :=
        if s.reached e.tgt = 0 then
          { s with reached := upd s.reached e.tgt 1
                   vis := { s.vis with nodes_explored := s.vis.nodes_explored + 1 } }
        else s
      if e.tgt ≠ s.vis.start_node ∧ e.tgt ≠ s.vis.end_node then
        { s with vis := { s.vis with cells := upd s.vis.cells e.tgt VIS_OPEN } }
      else s
    else s

/-- bellman_ford_step from algo_bellman_ford.c: one full edge-list pass,
with early termination when a pass changes nothing. -/
def bellman_ford_step (s : BellmanFordState) : Bool × BellmanFordState :=
  if s.vis.done ≠ 0 then (false, s)
  else if s.edge_count = 0 then (false, { s with vis := { s.vis with done := 1 } })
  else
    let s := { s with bf_changed := 0 }
    let s := (List.range s.edge_count.toNat).foldl bellman_ford_relax s
    let s := { s with
      vis := { s.vis with steps := s.vis.steps + 1 }
      bf_iter := s.bf_iter + 1 }
    if s.bf_changed = 0 ∨ s.bf_iter ≥ s.total_nodes - 1 then
      let total := s.total_nodes
      let s := { s with vis := { s.vis with
        done := 1
        cells := fun i =>
          if 0 ≤ i ∧ i < total ∧ s.reached i ≠ 0 ∧ i ≠ s.vis.start_node ∧
              i ≠ s.vis.end_node then VIS_CLOSED
          else s.vis.cells i } }
      if s.cost s.vis.end_node ≠ INT_MAX then
        (true, { s with vis := vis_trace_path { s.vis with found := 1 } s.parent s.cost })
      else (true, s)
    else (true, s)

/-! ### Floyd-Warshall (algo_floyd_warshall.c) -/

/-- FW_MAX_NODES from algo_floyd_warshall.c. -/
def FW_MAX_NODES : Int := 2500

/-- FW_INF from algo_floyd_warshall.c. -/
def FW_INF : Int := FW_MAX_NODES * 10

/-- Two-dimensional array store for the dense FW matrices. -/
def upd2 {α : Type} (m : Int → Int → α) (i j : Int) (v : α) : Int → Int → α :=
  fun a b => if a = i ∧ b = j then v else m a b

/-- FloydWarshallState from algo_floyd_warshall.c; `dist` and `nxt` are
the file-scope dense matrices, owned by the single run. -/
structure FloydWarshallState where
  vis : AlgoVis
  map : MapDef
  node_count : Int
  node_id : Int → Int
  grid_idx : Int → Int
  fw_k : Int
  dist : Int → Int → Int
  nxt : Int → Int → Int

/-- floyd_warshall_init from algo_floyd_warshall.c: compress passable
cells to dense ids, initialise the distance and next-hop matrices and add
the unit grid edges. -/
def floyd_warshall_init (map : MapDef) : FloydWarshallState :=
  let vis := vis_init_cells map
  let cols := map.cols
  let total := map.rows * map.cols
  let comp := (List.range total.toNat).foldl
    (fun (acc : (Int → Int) × (Int → Int) × Int) k =>
      let i : Int := Int.ofNat k
      if map.data i = 0 then
        (upd acc.1 i acc.2.2, upd acc.2.1 acc.2.2 i, acc.2.2 + 1)
      else (upd acc.1 i (-1), acc.2.1, acc.2.2))
    (fun _ => 0, fun _ => 0, 0)
  let node_id := comp.1
  let grid_idx := comp.2.1
  let V := comp.2.2
  let dist0 : Int → Int → Int := fun i j =>
    if 0 ≤ i ∧ i < V ∧ 0 ≤ j ∧ j < V then (if i = j then 0 else FW_INF) else 0
  let nxt0 : Int → Int → Int := fun i j =>
    if 0 ≤ i ∧ i < V ∧ 0 ≤ j ∧ j < V then -1 else 0
  let mats := (List.range map.rows.toNat).foldl
    (fun (acc : (Int → Int → Int) × (Int → Int → Int)) rk =>
      (List.range map.cols.toNat).foldl
        (fun acc ck =>
          let r : Int := Int.ofNat rk
          let c : Int := Int.ofNat ck
          if map.data (r * cols + c) ≠ 0 then acc
          else
            let u := node_id (get_index cols r c)
            (List.range 4).foldl
              (fun (acc : (Int → Int → Int) × (Int → Int → Int)) d =>
                let nr := r + DR d
                let nc := c + DC d
                if !is_valid map nr nc then acc
                else
                  let v := node_id (get_index cols nr nc)
                  (upd2 acc.1 u v 1, upd2 acc.2 u v v))
              acc)
        acc)
    (dist0, nxt0)
  { vis := vis
    map := map
    node_count := V
    node_id := node_id
    grid_idx := grid_idx
    fw_k := 0
    dist := mats.1
    nxt := mats.2 }

/-- Next-hop path walk of floyd_warshall_step
(`while (cur != end_id && cur != -1)`), fuel-bounded. -/
def fw_trace_go (s : FloydWarshallState) (end_id : Int) : Nat → Int → AlgoVis → AlgoVis
  | 0, _, vis => vis
  | fuel + 1, cur, vis =>
    if cur ≠ end_id ∧ cur ≠ -1 then
      let grid := s.grid_idx cur
      let vis :=
        if grid ≠ vis.start_node ∧ grid ≠ vis.end_node then
          { vis with cells := upd vis.cells grid VIS_PATH }
        else vis
      fw_trace_go s end_id fuel (s.nxt cur end_id) { vis with path_len := vis.path_len + 1 }
    else
      if cur = end_id then { vis with path_len := vis.path_len + 1 } else vis

/-- floyd_warshall_step from algo_floyd_warshall.c: one intermediate
vertex pass per call, then path reconstruction from the next-hop
matrix. -/
def floyd_warshall_step (s : FloydWarshallState) : Bool × FloydWarshallState :=
  if s.vis.done ≠ 0 then (false, s)
  else
    let V := s.node_count
    if s.fw_k ≥ V then
      let s := { s with vis := { s.vis with done := 1 } }
      let start_id := s.node_id s.vis.start_node
      let end_id := s.node_id s.vis.end_node
      if start_id < 0 ∨ end_id < 0 ∨ s.dist start_id end_id ≥ FW_INF then (false, s)
      else
        let vis := { s.vis with found := 1, path_cost := s.dist start_id end_id }
        (true, { s with vis := fw_trace_go s end_id (FW_MAX_NODES.toNat + 1) start_id vis })
    else
      let s := { s with vis := { s.vis with steps := s.vis.steps + 1 } }
      let k := s.fw_k
      let s := (List.range V.toNat).foldl
        (fun (s : FloydWarshallState) ik =>
          let i : Int := Int.ofNat ik
          if s.dist i k ≥ FW_INF then s
          else
            (List.range V.toNat).foldl
              (fun (s : FloydWarshallState) jk =>
                let j : Int := Int.ofNat jk
                if s.dist k j ≥ FW_INF then s
                else
                  let through_k := s.dist i k + s.dist k j
                  if through_k < s.dist i j then
                    { s with
                      vis := { s.vis with relaxations := s.vis.relaxations + 1 }
                      dist := upd2 s.dist i j through_k
                      nxt := upd2 s.nxt i j (s.nxt i k) }
                  else s)
              s)
        s
      let start_id := s.node_id s.vis.start_node
      let s :=
        if start_id ≥ 0 then
          (List.range V.toNat).foldl
            (fun (s : FloydWarshallState) jk =>
              let j : Int := Int.ofNat jk
              if s.dist start_id j < FW_INF ∧ j ≠ start_id then
                let grid := s.grid_idx j
                if grid ≠ s.vis.start_node ∧ grid ≠ s.vis.end_node then
                  if s.vis.cells grid ≠ VIS_OPEN then
                    { s with vis := { s.vis with
                        cells := upd s.vis.cells grid VIS_OPEN
                        nodes_explored := s.vis.nodes_explored + 1 } }
                  else s
                else s
              else s)
            s
        else s
      let k_grid := s.grid_idx k
      let s :=
        if k_grid ≠ s.vis.start_node ∧ k_grid ≠ s.vis.end_node then
          { s with vis := { s.vis with cells := upd s.vis.cells k_grid VIS_CLOSED } }
        else s
      (true, { s with fw_k := s.fw_k + 1 })

/-! ### Flow Field (algo_flowfield.c) -/

/-- FlowFieldState from algo_flowfield.c. -/
structure FlowFieldState where
  vis : AlgoVis
  map : MapDef
  heap : Heap
  int_cost : Int → Int
  flow_dir : Int → Int
  closed : Int → Int
  phase : Int
  trace_node : Int

/-- flowfield_init from algo_flowfield.c: Dijkstra seeded at the goal. -/
def flowfield_init (map : MapDef) : FlowFieldState :=
  let vis := vis_init_cells map
  let total := map.rows * map.cols
  let goal := vis.end_node
  { vis := vis
    map := map
    heap := heap_push heap_init goal 0
    int_cost := upd (fun i => if 0 ≤ i ∧ i < total then INT_MAX else 0) goal 0
    flow_dir := fun i => if 0 ≤ i ∧ i < total then -1 else 0
    closed := fun _ => 0
    phase := 0
    trace_node := -1 }

/-- Flow-direction computation run when integration finishes: each
reached cell points at its strictly cheaper neighbor. -/
def flowfield_compute_dirs (s : FlowFieldState) : FlowFieldState :=
  let cols := s.vis.cols
  let total := s.map.rows * s.map.cols
  (List.range total.toNat).foldl
    (fun (s : FlowFieldState) k =>
      let i : Int := Int.ofNat k
      if s.int_cost i = INT_MAX then s
      else
        let r := cdiv i cols
        let c := cmod i cols
        let best := (List.range 4).foldl
          (fun (best : Int × Int) d =>
            let nr := r + DR d
            let nc := c + DC d
            if !is_valid s.map nr nc then best
            else
              let ni := get_index cols nr nc
              if s.int_cost ni < best.1 then (s.int_cost ni, Int.ofNat d) else best)
          (s.int_cost i, -1)
        { s with flow_dir := upd s.flow_dir i best.2 })
    s

/-- flowfield_step from algo_flowfield.c: integration phase, then path
extraction following the flow directions. -/
def flowfield_step (s : FlowFieldState) : Bool × FlowFieldState :=
  if s.vis.done ≠ 0 then (false, s)
  else
    let cols := s.vis.cols
    let s := { s with vis := { s.vis with steps := s.vis.steps + 1 } }
    if s.phase = 0 then
      if s.heap.size = 0 then
        let s := flowfield_compute_dirs s
        if s.int_cost s.vis.start_node = INT_MAX then
          (false, { s with vis := { s.vis with done := 1 } })
        else
          (true, { s with phase := 1, trace_node := s.vis.start_node
                          vis := { s.vis with path_len := 1 } })
      else
        let pop := heap_pop s.heap
        let s := { s with heap := pop.2 }
        let node := pop.1.node
        if s.closed node ≠ 0 then (true, s)
        else
          let s := { s with
            closed := upd s.closed node 1
            vis := { s.vis with nodes_explored := s.vis.nodes_explored + 1 } }
          let s :=
            if node ≠ s.vis.start_node ∧ node ≠ s.vis.end_node then
              { s with vis := { s.vis with cells := upd s.vis.cells node VIS_OPEN } }
            else s
          let r := cdiv node cols
          let c := cmod node cols
          (true, (List.range 4).foldl
            (fun (s : FlowFieldState) d =>
              let nr := r + DR d
              let nc := c + DC d
              if !is_valid s.map nr nc then s
              else
                let neighbor := get_index cols nr nc
                if s.closed neighbor ≠ 0 then s
                else
                  let new_cost := s.int_cost node + 1
                  if new_cost < s.int_cost neighbor then
                    { s with
                      vis := { s.vis with relaxations := s.vis.relaxations + 1 }
                      int_cost := upd s.int_cost neighbor new_cost
                      heap := heap_push s.heap neighbor new_cost }
                  else s)
            s)
    else
      let cur := s.trace_node
      if cur = s.vis.end_node then
        (false, { s with vis := { s.vis with
          done := 1, found := 1, path_cost := s.int_cost s.vis.start_node } })
      else
        let dir := s.flow_dir cur
        if dir < 0 then (false, { s with vis := { s.vis with done := 1 } })
        else
          let r := cdiv cur cols
          let c := cmod cur cols
          let nr := r + DR dir.toNat
          let nc := c + DC dir.toNat
          let next := get_index cols nr nc
          let s :=
            if next ≠ s.vis.start_node ∧ next ≠ s.vis.end_node then
              { s with vis := { s.vis with cells := upd s.vis.cells next VIS_PATH } }
            else s
          (true, { s with trace_node := next
                          vis := { s.vis with path_len := s.vis.path_len + 1 } })

/-! ### IDA* (algo_ida_star.c) -/

/-- StackFrame from algo_ida_star.c. -/
structure StackFrame where
  node : Int
  g : Int
  next_dir : Int

/-- IDA_MAX_STACK from algo_ida_star.c. -/
def IDA_MAX_STACK : Int := MAX_NODES * 2

/-- IDAStarState from algo_ida_star.c. -/
structure IDAStarState where
  vis : AlgoVis
  map : MapDef
  stack : Int → StackFrame
  sp : Int
  threshold : Int
  next_threshold : Int
  on_path : Int → Int
  visited : Int → Int
  parent : Int → Int
  cost : Int → Int

/-- ida_start_iteration from algo_ida_star.c: reset the per-iteration
arrays and colors and push the start frame. -/
def ida_start_iteration (s : IDAStarState) : IDAStarState :=
  let total := s.map.rows * s.map.cols
  let s := { s with
    sp := 0
    next_threshold := INT_MAX
    on_path := (fun i => if 0 ≤ i ∧ i < total then 0 else s.on_path i)
    visited := (fun i => if 0 ≤ i ∧ i < total then 0 else s.visited i)
    vis := { s.vis with cells := (fun i =>
      if 0 ≤ i ∧ i < total ∧ s.vis.cells i ≠ VIS_WALL ∧ i ≠ s.vis.start_node ∧
          i ≠ s.vis.end_node then VIS_EMPTY
      else s.vis.cells i) } }
  let start := s.vis.start_node
  { s with
    stack := upd s.stack 0 { node := start, g := 0, next_dir := 0 }
    sp := 1
    on_path := upd s.on_path start 1
    visited := upd s.visited start 1 }

/-- ida_star_init from algo_ida_star.c. -/
def ida_star_init (map : MapDef) : IDAStarState :=
  let vis := vis_init_cells map
  let total := map.rows * map.cols
  let s : IDAStarState :=
    { vis := vis
      map := map
      stack := fun _ => { node := 0, g := 0, next_dir := 0 }
      sp := 0
      threshold := manhattan map.start_r map.start_c map.end_r map.end_c
      next_threshold := 0
      on_path := fun _ => 0
      visited := fun _ => 0
      parent := fun i => if 0 ≤ i ∧ i < total then -1 else 0
      cost := upd (fun i => if 0 ≤ i ∧ i < total then INT_MAX else 0) vis.start_node 0 }
  ida_start_iteration s

/-- Expansion loop of ida_star_step (`while (top->next_dir < 4)`), with
the frame's next_dir cursor kept in the state; the fuel is the number of
directions left to try. -/
def ida_try_dirs (node r c g : Int) (s : IDAStarState) : Nat → Bool × IDAStarState × Bool
  | 0 => (false, s, false)
  | fuel + 1 =>
    let top := s.stack (s.sp - 1)
    if top.next_dir < 4 then
      let d := top.next_dir
      let s := { s with stack := upd s.stack (s.sp - 1) { top with next_dir := d + 1 } }
      let nr := r + DR d.toNat
      let nc := c + DC d.toNat
      if !is_valid s.map nr nc then ida_try_dirs node r c g s fuel
      else
        let neighbor := get_index s.vis.cols nr nc
        if s.on_path neighbor ≠ 0 then ida_try_dirs node r c g s fuel
        else
          let new_g := g + 1
          let f := new_g + manhattan nr nc s.map.end_r s.map.end_c
          if f > s.threshold then
            let s := if f < s.next_threshold then { s with next_threshold := f } else s
            ida_try_dirs node r c g s fuel
          else
            let s := { s with
              vis := { s.vis with relaxations := s.vis.relaxations + 1 }
              on_path := upd s.on_path neighbor 1
              parent := upd s.parent neighbor node
              cost := upd s.cost neighbor new_g }
            let s :=
              if s.visited neighbor = 0 then
                { s with visited := upd s.visited neighbor 1
                         vis := { s.vis with nodes_explored := s.vis.nodes_explored + 1 } }
              else s
            let s :=
              if neighbor ≠ s.vis.start_node ∧ neighbor ≠ s.vis.end_node then
                { s with vis := { s.vis with cells := upd s.vis.cells neighbor VIS_OPEN } }
              else s
            if neighbor = s.vis.end_node then
              (true, { s with vis :=
                vis_trace_path { s.vis with done := 1, found := 1 } s.parent s.cost }, true)
            else
              let s :=
                if s.sp < IDA_MAX_STACK then
                  { s with
                    stack := upd s.stack s.sp { node := neighbor, g := new_g, next_dir := 0 }
                    sp := s.sp + 1 }
                else s
              (true, s, true)
    else (false, s, false)

/-- ida_star_step from algo_ida_star.c: one push or one backtrack per
call, raising the threshold when the stack drains. -/
def ida_star_step (s : IDAStarState) : Bool × IDAStarState :=
  if s.vis.done ≠ 0 then (false, s)
  else
    let cols := s.vis.cols
    let s := { s with vis := { s.vis with steps := s.vis.steps + 1 } }
    if s.sp = 0 then
      if s.next_threshold = INT_MAX then (false, { s with vis := { s.vis with done := 1 } })
      else
        let s := { s with threshold := s.next_threshold }
        (true, ida_start_iteration s)
    else
      let top := s.stack (s.sp - 1)
      let node := top.node
      let r := cdiv node cols
      let c := cmod node cols
      let g := top.g
      let fuel := (4 - top.next_dir).toNat
      let res := ida_try_dirs node r c g s fuel
      if res.1 then (true, res.2.1)
      else
        let s := res.2.1
        let s := { s with sp := s.sp - 1, on_path := upd s.on_path node 0 }
        if node ≠ s.vis.start_node ∧ node ≠ s.vis.end_node then
          (true, { s with vis := { s.vis with cells := upd s.vis.cells node VIS_CLOSED } })
        else (true, s)

/-! ### Fringe Search (algo_fringe.c) -/

/-- FringeNode from algo_fringe.c. -/
structure FringeNode where
  prev : Int
  next : Int
  f : Int
  g : Int
  in_list : Int

/-- FringeState from algo_fringe.c. -/
structure FringeState where
  vis : AlgoVis
  map : MapDef
  nodes : Int → FringeNode
  parent : Int → Int
  threshold : Int
  next_threshold : Int
  now_head : Int
  later_head : Int
  phase : Int

/-- list_remove from algo_fringe.c: unlink a node from whichever list it
is in, fixing the heads. -/
def list_remove (s : FringeState) (node : Int) : FringeState :=
  let n := s.nodes node
  let p := n.prev
  let nx := n.next
  let nodes := s.nodes
  let nodes := if p ≥ 0 then upd nodes p { nodes p with next := nx } else nodes
  let nodes := if nx ≥ 0 then upd nodes nx { nodes nx with prev := p } else nodes
  let now_head := if n.in_list = 1 ∧ s.now_head = node then nx else s.now_head
  let later_head := if n.in_list = 2 ∧ s.later_head = node then nx else s.later_head
  let nodes := upd nodes node { nodes node with prev := -1, next := -1, in_list := 0 }
  { s with nodes := nodes, now_head := now_head, later_head := later_head }

/-- list_prepend_now from algo_fringe.c. -/
def list_prepend_now (s : FringeState) (node : Int) : FringeState :=
  let nodes := upd s.nodes node { s.nodes node with prev := -1, next := s.now_head }
  let nodes := if s.now_head ≥ 0 then upd nodes s.now_head { nodes s.now_head with prev := node }
    else nodes
  let nodes := upd nodes node { nodes node with in_list := 1 }
  { s with nodes := nodes, now_head := node }

/-- list_prepend_later from algo_fringe.c. -/
def list_prepend_later (s : FringeState) (node : Int) : FringeState :=
  let nodes := upd s.nodes node { s.nodes node with prev := -1, next := s.later_head }
  let nodes := if s.later_head ≥ 0 then
    upd nodes s.later_head { nodes s.later_head with prev := node } else nodes
  let nodes := upd nodes node { nodes node with in_list := 2 }
  { s with nodes := nodes, later_head := node }

/-- fringe_init from algo_fringe.c. -/
def fringe_init (map : MapDef) : FringeState :=
  let vis := vis_init_cells map
  let total := map.rows * map.cols
  let h := manhattan map.start_r map.start_c map.end_r map.end_c
  let start := vis.start_node
  let base : Int → FringeNode := fun i =>
    if 0 ≤ i ∧ i < total then { prev := -1, next := -1, f := INT_MAX, g := INT_MAX, in_list := 0 }
    else { prev := 0, next := 0, f := 0, g := 0, in_list := 0 }
  let s : FringeState :=
    { vis := vis
      map := map
      nodes := upd base start { base start with g := 0, f := h }
      parent := fun i => if 0 ≤ i ∧ i < total then -1 else 0
      threshold := h
      next_threshold := INT_MAX
      now_head := -1
      later_head := -1
      phase := 0 }
  list_prepend_now s start

/-- Relabel walk of the fringe_step later-to-now swap
(`while (cur >= 0) ...`), fuel-bounded. -/
def fringe_relabel (s : FringeState) : Nat → Int → FringeState
  | 0, _ => s
  | fuel + 1, cur =>
    if cur ≥ 0 then
      let s := { s with nodes := upd s.nodes cur { s.nodes cur with in_list := 1 } }
      fringe_relabel s fuel (s.nodes cur).next
    else s

/-- Goal trace of fringe_step (`while (cur != -1)` over parents),
fuel-bounded. -/
def fringe_trace (parent : Int → Int) : Nat → Int → AlgoVis → AlgoVis
  | 0, _, vis => vis
  | fuel + 1, cur, vis =>
    if cur ≠ -1 then
      let vis :=
        if cur ≠ vis.start_node ∧ cur ≠ vis.end_node then
          { vis with cells := upd vis.cells cur VIS_PATH }
        else vis
      fringe_trace parent fuel (parent cur) { vis with path_len := vis.path_len + 1 }
    else vis

/-- Deferral arm of fringe_step's head expansion: the head node's f
exceeds the threshold, so record it for the next threshold and move it to
the later list. -/
def fringe_defer (s : FringeState) (node : Int) : Bool × FringeState :=
      let f := (s.nodes node).f
      let s := if f < s.next_threshold then { s with next_threshold := f } else s
      let s := list_remove s node
      (true, list_prepend_later s node)

/-- Visit arm of fringe_step's head expansion: settle the head node and
either trace the path (goal reached) or relax its neighbors. -/
def fringe_visit (s : FringeState) (node cols : Int) : Bool × FringeState :=
      let s := list_remove s node
      let s := { s with vis := { s.vis with nodes_explored := s.vis.nodes_explored + 1 } }
      let s :=
        if node ≠ s.vis.start_node ∧ node ≠ s.vis.end_node then
          { s with vis := { s.vis with cells := upd s.vis.cells node VIS_CLOSED } }
        else s
      if node = s.vis.end_node then
        let vis := { s.vis with done := 1, found := 1, path_cost := (s.nodes node).g }
        (true, { s with vis := fringe_trace s.parent (MAX_NODES.toNat + 1) node vis })
      else
        let r := cdiv node cols
        let c := cmod node cols
        let g := (s.nodes node).g
        (true, (List.range 4).foldl
          (fun (s : FringeState) d =>
            let nr := r + DR d
            let nc := c + DC d
            if !is_valid s.map nr nc then s
            else
              let neighbor := get_index cols nr nc
              let new_g := g + 1
              if new_g ≥ (s.nodes neighbor).g then s
              else
                let h := manhattan nr nc s.map.end_r s.map.end_c
                let s := { s with
                  vis := { s.vis with relaxations := s.vis.relaxations + 1 }
                  nodes := upd s.nodes neighbor
                    { s.nodes neighbor with g := new_g, f := new_g + h }
                  parent := upd s.parent neighbor node }
                let s := if (s.nodes neighbor).in_list ≠ 0 then list_remove s neighbor else s
                let s := list_prepend_now s neighbor
                if neighbor ≠ s.vis.start_node ∧ neighbor ≠ s.vis.end_node then
                  { s with vis := { s.vis with cells := upd s.vis.cells neighbor VIS_OPEN } }
                else s)
          s)

/-- Head-expansion part of fringe_step: process the node at the head of
the now list — defer it, or visit it. -/
def fringe_expand (s : FringeState) : Bool × FringeState :=
  let node := s.now_head
  let cols := s.vis.cols
  let s := { s with vis := { s.vis with steps := s.vis.steps + 1 } }
  if (s.nodes node).f > s.threshold then fringe_defer s node
  else fringe_visit s node cols

/-- fringe_step from algo_fringe.c: pop the head of `now`, defer it to
`later` if its f exceeds the threshold, otherwise expand it; swap the
lists and advance the threshold when `now` drains. -/
def fringe_step (s : FringeState) : Bool × FringeState :=
  if s.vis.done ≠ 0 then (false, s)
  else if s.now_head < 0 then
    if s.later_head < 0 ∨ s.next_threshold = INT_MAX then
      (false, { s with vis := { s.vis with done := 1 } })
    else
      let s := { s with
        threshold := s.next_threshold
        next_threshold := INT_MAX
        now_head := s.later_head
        later_head := -1 }
      (true, fringe_relabel s (MAX_NODES.toNat + 1) s.now_head)
  else fringe_expand s

/-! ### Rectangular Symmetry Reduction (algo_rsr.c) -/

/-- RSRRect from algo_rsr.c. -/
structure RSRRect where
  r1 : Int
  c1 : Int
  r2 : Int
  c2 : Int
  id : Int

/-- MAX_RECTS from algo_rsr.c. -/
def MAX_RECTS : Int := Int.tdiv MAX_NODES 4

/-- RSRState from algo_rsr.c. -/
structure RSRState where
  vis : AlgoVis
  map : MapDef
  rects : Int → RSRRect
  rect_count : Int
  rect_id : Int → Int
  assigned : Int → Int
  scan_r : Int
  scan_c : Int
  phase : Int
  heap : Heap
  cost : Int → Int
  parent : Int → Int
  closed : Int → Int
  is_perimeter : Int → Int

/-- Rightward extension loop of rsr_grow_rect (`while (ec < max_c && ...)`),
fuel-bounded by the column count. -/
def rsr_grow_right (s : RSRState) (sr : Int) : Nat → Int → Int
  | 0, ec => ec
  | fuel + 1, ec =>
    if ec < s.map.cols ∧ s.assigned (sr * s.map.cols + ec) = 0 ∧
        s.map.data (sr * s.map.cols + ec) = 0 then
      rsr_grow_right s sr fuel (ec + 1)
    else ec

/-- Row-free test for the downward extension of rsr_grow_rect. -/
def rsr_row_free (s : RSRState) (r sc ec : Int) : Bool :=
  (List.range (ec - sc + 1).toNat).foldl
    (fun ok k =>
      let c := sc + Int.ofNat k
      let idx := r * s.map.cols + c
      if s.assigned idx ≠ 0 ∨ s.map.data idx ≠ 0 then false else ok)
    true

/-- Downward extension loop of rsr_grow_rect (`for (r = sr + 1; ...)` with
break), fuel-bounded by the row count. -/
def rsr_grow_down (s : RSRState) (sc ec : Int) : Nat → Int → Int → Int
  | 0, _, er => er
  | fuel + 1, r, er =>
    if r < s.map.rows then
      if rsr_row_free s r sc ec then rsr_grow_down s sc ec fuel (r + 1) r
      else er
    else er

/-- rsr_grow_rect from algo_rsr.c: grow the maximal free rectangle with
top-left corner (sr,sc); none if the corner cell itself is blocked. -/
def rsr_grow_rect (s : RSRState) (sr sc : Int) : Option RSRRect :=
  let ec := rsr_grow_right s sr (s.map.cols.toNat + 1) sc - 1
  if ec < sc then none
  else
    let er := rsr_grow_down s sc ec (s.map.rows.toNat + 1) (sr + 1) sr
    some { r1 := sr, c1 := sc, r2 := er, c2 := ec, id := 0 }

/-- rsr_mark_perimeter from algo_rsr.c: clear the perimeter array and
mark every rectangle edge cell plus start and end. -/
def rsr_mark_perimeter (s : RSRState) : RSRState :=
  let cols := s.map.cols
  let total := s.map.rows * s.map.cols
  let per : Int → Int := fun i => if 0 ≤ i ∧ i < total then 0 else s.is_perimeter i
  let per := (List.range s.rect_count.toNat).foldl
    (fun per k =>
      let r := s.rects (Int.ofNat k)
      let per := (List.range (r.c2 - r.c1 + 1).toNat).foldl
        (fun per j =>
          let c := r.c1 + Int.ofNat j
          upd (upd per (r.r1 * cols + c) 1) (r.r2 * cols + c) 1)
        per
      (List.range (r.r2 - r.r1 + 1).toNat).foldl
        (fun per j =>
          let row := r.r1 + Int.ofNat j
          upd (upd per (row * cols + r.c1) 1) (row * cols + r.c2) 1)
        per)
    per
  { s with is_perimeter := upd (upd per s.vis.start_node 1) s.vis.end_node 1 }

/-- rsr_init from algo_rsr.c. -/
def rsr_init (map : MapDef) : RSRState :=
  let vis := vis_init_cells map
  let total := map.rows * map.cols
  { vis := vis
    map := map
    rects := fun _ => { r1 := 0, c1 := 0, r2 := 0, c2 := 0, id := 0 }
    rect_count := 0
    rect_id := fun i => if 0 ≤ i ∧ i < total then -1 else 0
    assigned := fun _ => 0
    scan_r := 0
    scan_c := 0
    phase := 0
    heap := heap_init
    cost := fun i => if 0 ≤ i ∧ i < total then INT_MAX else 0
    parent := fun i => if 0 ≤ i ∧ i < total then -1 else 0
    closed := fun _ => 0
    is_perimeter := fun _ => 0 }

/-- Cell-marking double loop run when a rectangle is recorded. -/
def rsr_mark_rect (s : RSRState) (rect : RSRRect) : RSRState :=
  let cols := s.vis.cols
  (List.range (rect.r2 - rect.r1 + 1).toNat).foldl
    (fun s j =>
      let r := rect.r1 + Int.ofNat j
      (List.range (rect.c2 - rect.c1 + 1).toNat).foldl
        (fun (s : RSRState) jc =>
          let c := rect.c1 + Int.ofNat jc
          let ci := r * cols + c
          let s := { s with
            assigned := upd s.assigned ci 1
            rect_id := upd s.rect_id ci rect.id }
          let is_edge := r = rect.r1 ∨ r = rect.r2 ∨ c = rect.c1 ∨ c = rect.c2
          let v := if is_edge then VIS_OPEN else VIS_PREPROCESS
          if ci ≠ s.vis.start_node ∧ ci ≠ s.vis.end_node then
            { s with vis := { s.vis with cells := upd s.vis.cells ci v } }
          else s)
        s)
    s

/-- Decomposition scan loop of rsr_step phase 0
(`while (s->scan_r < map->rows)`), fuel-bounded: the scan position
advances one cell per iteration (or jumps past a recorded rectangle). -/
def rsr_scan (s : RSRState) : Nat → Bool × RSRState
  | 0 => (false, s)
  | fuel + 1 =>
    if s.scan_r < s.map.rows then
      let cols := s.vis.cols
      let idx := s.scan_r * cols + s.scan_c
      let hit :=
        if s.assigned idx = 0 ∧ s.map.data idx = 0 then
          match rsr_grow_rect s s.scan_r s.scan_c with
          | some rect =>
            if s.rect_count < MAX_RECTS then some rect else none
          | none => none
        else none
      match hit with
      | some rect =>
        let rect := { rect with id := s.rect_count }
        let s := { s with rects := upd s.rects s.rect_count rect }
        let s := rsr_mark_rect s rect
        let s := { s with rect_count := s.rect_count + 1 }
        let s := { s with scan_c := rect.c2 + 1 }
        let s :=
          if s.scan_c ≥ cols then { s with scan_c := 0, scan_r := s.scan_r + 1 } else s
        (true, s)
      | none =>
        let s := { s with scan_c := s.scan_c + 1 }
        let s :=
          if s.scan_c ≥ cols then { s with scan_c := 0, scan_r := s.scan_r + 1 } else s
        rsr_scan s fuel
    else (false, s)

/-- Interior fast-forward walk of rsr_step phase 1 (`while (wr + DR[d]
...)`), fuel-bounded; returns the far cell and the distance walked. -/
def rsr_skip (s : RSRState) (d : Nat) : Nat → Int → Int → Int → (Int × Int × Int)
  | 0, wr, wc, dist => (wr, wc, dist)
  | fuel + 1, wr, wc, dist =>
    if wr + DR d ≥ 0 ∧ wr + DR d < s.map.rows ∧ wc + DC d ≥ 0 ∧ wc + DC d < s.map.cols then
      let next_idx := get_index s.vis.cols (wr + DR d) (wc + DC d)
      if s.map.data next_idx ≠ 0 ∨ s.is_perimeter next_idx ≠ 0 then (wr, wc, dist)
      else rsr_skip s d fuel (wr + DR d) (wc + DC d) (dist + 1)
    else (wr, wc, dist)

/-- Neighbor expansion body of rsr_step phase 1. -/
def rsr_relax (node r c : Int) (s : RSRState) (d : Nat) : RSRState :=
  let cols := s.vis.cols
  let nr := r + DR d
  let nc := c + DC d
  if !is_valid s.map nr nc then s
  else
    let neighbor := get_index cols nr nc
    if s.closed neighbor ≠ 0 then s
    else
      let new_g := s.cost node + 1
      if new_g < s.cost neighbor then
        let s := { s with
          vis := { s.vis with relaxations := s.vis.relaxations + 1 }
          cost := upd s.cost neighbor new_g
          parent := upd s.parent neighbor node }
        if s.is_perimeter neighbor = 0 then
          let walk := rsr_skip s d ((MAX_ROWS + MAX_COLS).toNat + 2) nr nc 1
          let far := get_index cols walk.1 walk.2.1
          let far_g := s.cost node + walk.2.2
          let h := manhattan walk.1 walk.2.1 s.map.end_r s.map.end_c
          if far_g < s.cost far then
            { s with
              cost := upd s.cost far far_g
              parent := upd s.parent far node
              heap := heap_push s.heap far (far_g + h) }
          else s
        else
          let h := manhattan nr nc s.map.end_r s.map.end_c
          let s := { s with heap := heap_push s.heap neighbor (new_g + h) }
          if neighbor ≠ s.vis.start_node ∧ neighbor ≠ s.vis.end_node then
            { s with vis := { s.vis with cells := upd s.vis.cells neighbor VIS_OPEN } }
          else s
      else s

/-- rsr_step from algo_rsr.c: greedy rectangle decomposition, then A*
restricted to rectangle perimeters with interior fast-forwarding. -/
def rsr_step (s : RSRState) : Bool × RSRState :=
  if s.vis.done ≠ 0 then (false, s)
  else
    let cols := s.vis.cols
    let s := { s with vis := { s.vis with steps := s.vis.steps + 1 } }
    if s.phase = 0 then
      let scan := rsr_scan s ((s.map.rows * s.map.cols).toNat + 2)
      if scan.1 then (true, scan.2)
      else
        let s := { scan.2 with phase := 1 }
        let s := rsr_mark_perimeter s
        let start := s.vis.start_node
        let s := { s with cost := upd s.cost start 0 }
        let sr := cdiv start cols
        let sc := cmod start cols
        let h := manhattan sr sc s.map.end_r s.map.end_c
        (true, { s with heap := heap_push s.heap start h })
    else if s.phase = 1 then
      if s.heap.size = 0 then (false, { s with vis := { s.vis with done := 1 } })
      else
        let pop := heap_pop s.heap
        let s := { s with heap := pop.2 }
        let node := pop.1.node
        if s.closed node ≠ 0 then (true, s)
        else
          let s := { s with
            closed := upd s.closed node 1
            vis := { s.vis with nodes_explored := s.vis.nodes_explored + 1 } }
          let s :=
            if node ≠ s.vis.start_node ∧ node ≠ s.vis.end_node then
              { s with vis := { s.vis with cells := upd s.vis.cells node VIS_CLOSED } }
            else s
          if node = s.vis.end_node then
            (true, { s with vis :=
              vis_trace_path { s.vis with done := 1, found := 1 } s.parent s.cost })
          else
            let r := cdiv node cols
            let c := cmod node cols
            (true, (List.range 4).foldl (rsr_relax node r c) s)
    else (false, s)

/-! ### Subgoal Graphs (algo_subgoal.c) -/

/-- MAX_SUBGOALS from algo_subgoal.c. -/
def MAX_SUBGOALS : Int := 1000

/-- MAX_ADJ from algo_subgoal.c. -/
def MAX_ADJ : Int := 32

/-- SubgoalState from algo_subgoal.c. -/
structure SubgoalState where
  vis : AlgoVis
  map : MapDef
  subgoals : Int → Int
  sg_count : Int
  sg_idx : Int → Int
  sg_adj : Int → Int → Int
  sg_adj_cost : Int → Int → Int
  sg_adj_count : Int → Int
  phase : Int
  scan_pos : Int
  edge_i : Int
  heap : Heap
  cost : Int → Int
  parent : Int → Int
  closed_sg : Int → Int
  start_sg : Int
  end_sg : Int

/-- is_subgoal from algo_subgoal.c: a passable cell flanked by an
L-shaped wall corner (grid borders count as walls). -/
def is_subgoal (map : MapDef) (r c : Int) : Bool :=
  if map.data (r * map.cols + c) ≠ 0 then false
  else
    let cols := map.cols
    let rows := map.rows
    let n := if r > 0 then map.data ((r - 1) * cols + c) else 1
    let so := if r < rows - 1 then map.data ((r + 1) * cols + c) else 1
    let w := if c > 0 then map.data (r * cols + (c - 1)) else 1
    let e := if c < cols - 1 then map.data (r * cols + (c + 1)) else 1
    (n ≠ 0 ∧ w ≠ 0) ∨ (n ≠ 0 ∧ e ≠ 0) ∨ (so ≠ 0 ∧ w ≠ 0) ∨ (so ≠ 0 ∧ e ≠ 0)

/-- direct_reachable from algo_subgoal.c: two subgoals on the same row or
column with no wall and no other subgoal strictly between them. -/
def direct_reachable (s : SubgoalState) (sg1 sg2 : Int) : Bool :=
  let n1 := s.subgoals sg1
  let n2 := s.subgoals sg2
  let cols := s.vis.cols
  let r1 := cdiv n1 cols
  let c1 := cmod n1 cols
  let r2 := cdiv n2 cols
  let c2 := cmod n2 cols
  if r1 = r2 then
    let minc := if c1 < c2 then c1 else c2
    let maxc := if c1 > c2 then c1 else c2
    (List.range (maxc - minc - 1).toNat).foldl
      (fun ok k =>
        let c := minc + 1 + Int.ofNat k
        if s.map.data (r1 * cols + c) ≠ 0 then false
        else if s.sg_idx (get_index cols r1 c) ≥ 0 then false
        else ok)
      true
  else if c1 = c2 then
    let minr := if r1 < r2 then r1 else r2
    let maxr := if r1 > r2 then r1 else r2
    (List.range (maxr - minr - 1).toNat).foldl
      (fun ok k =>
        let r := minr + 1 + Int.ofNat k
        if s.map.data (r * cols + c1) ≠ 0 then false
        else if s.sg_idx (get_index cols r c1) ≥ 0 then false
        else ok)
      true
  else false

/-- subgoal_init from algo_subgoal.c. -/
def subgoal_init (map : MapDef) : SubgoalState :=
  let vis := vis_init_cells map
  let total := map.rows * map.cols
  { vis := vis
    map := map
    subgoals := fun _ => 0
    sg_count := 0
    sg_idx := fun i => if 0 ≤ i ∧ i < total then -1 else 0
    sg_adj := fun _ _ => 0
    sg_adj_cost := fun _ _ => 0
    sg_adj_count := fun _ => 0
    phase := 0
    scan_pos := 0
    edge_i := 0
    heap := heap_init
    cost := fun i => if 0 ≤ i ∧ i < MAX_SUBGOALS + 2 then INT_MAX else 0
    parent := fun i => if 0 ≤ i ∧ i < MAX_SUBGOALS + 2 then -1 else 0
    closed_sg := fun _ => 0
    start_sg := -1
    end_sg := -1 }

/-- Subgoal-identification scan loop of subgoal_step phase 0
(`while (s->scan_pos < total)`), fuel-bounded. -/
def subgoal_scan (s : SubgoalState) : Nat → Bool × SubgoalState
  | 0 => (false, s)
  | fuel + 1 =>
    let total := s.map.rows * s.map.cols
    if s.scan_pos < total then
      let cols := s.vis.cols
      let pos := s.scan_pos
      let s := { s with scan_pos := s.scan_pos + 1 }
      let r := cdiv pos cols
      let c := cmod pos cols
      if is_subgoal s.map r c ∧ s.sg_count < MAX_SUBGOALS then
        let idx := s.sg_count
        let s := { s with
          subgoals := upd s.subgoals idx pos
          sg_idx := upd s.sg_idx pos idx
          sg_count := s.sg_count + 1 }
        let s :=
          if pos ≠ s.vis.start_node ∧ pos ≠ s.vis.end_node then
            { s with vis := { s.vis with cells := upd s.vis.cells pos VIS_PREPROCESS } }
          else s
        let s := if pos = s.vis.start_node then { s with start_sg := idx } else s
        let s := if pos = s.vis.end_node then { s with end_sg := idx } else s
        (true, s)
      else subgoal_scan s fuel
    else (false, s)

/-- Edge-building body of subgoal_step phase 1 for subgoal pair (i, j). -/
def subgoal_link (s : SubgoalState) (i j : Int) : SubgoalState :=
  if direct_reachable s i j then
    let cols := s.vis.cols
    let n1 := s.subgoals i
    let n2 := s.subgoals j
    let r1 := cdiv n1 cols
    let c1 := cmod n1 cols
    let r2 := cdiv n2 cols
    let c2 := cmod n2 cols
    let dist := manhattan r1 c1 r2 c2
    let s :=
      if s.sg_adj_count i < MAX_ADJ then
        let k := s.sg_adj_count i
        { s with
          sg_adj := upd2 s.sg_adj i k j
          sg_adj_cost := upd2 s.sg_adj_cost i k dist
          sg_adj_count := upd s.sg_adj_count i (k + 1) }
      else s
    if s.sg_adj_count j < MAX_ADJ then
      let k := s.sg_adj_count j
      { s with
        sg_adj := upd2 s.sg_adj j k i
        sg_adj_cost := upd2 s.sg_adj_cost j k dist
        sg_adj_count := upd s.sg_adj_count j (k + 1) }
    else s
  else s

/-- Segment-filling loop of the subgoal_step path trace
(`while (ir != pr || ic != pc)`), fuel-bounded: advances one row or
column per iteration. -/
def subgoal_fill (sn en cols pr pc dr dc : Int) : Nat → Int → Int → AlgoVis → AlgoVis
  | 0, _, _, vis => vis
  | fuel + 1, ir, ic, vis =>
    if ir ≠ pr ∨ ic ≠ pc then
      let idx := get_index cols ir ic
      let vis :=
        if idx ≠ sn ∧ idx ≠ en then { vis with cells := upd vis.cells idx VIS_PATH }
        else vis
      let vis := { vis with path_len := vis.path_len + 1 }
      if ir ≠ pr then subgoal_fill sn en cols pr pc dr dc fuel (ir + dr) ic vis
      else subgoal_fill sn en cols pr pc dr dc fuel ir (ic + dc) vis
    else vis

/-- Parent-chain walk of the subgoal_step path trace
(`while (csg >= 0)`), fuel-bounded. -/
def subgoal_trace (s : SubgoalState) (cols : Int) : Nat → Int → AlgoVis → AlgoVis
  | 0, _, vis => vis
  | fuel + 1, csg, vis =>
    if csg ≥ 0 then
      let cn := s.subgoals csg
      let psg := s.parent csg
      let vis :=
        if psg ≥ 0 then
          let pn := s.subgoals psg
          let cr := cdiv cn cols
          let cc := cmod cn cols
          let pr := cdiv pn cols
          let pc := cmod pn cols
          let dr : Int := if cr < pr then 1 else if cr > pr then -1 else 0
          let dc : Int := if cc < pc then 1 else if cc > pc then -1 else 0
          subgoal_fill s.vis.start_node s.vis.end_node cols pr pc dr dc
            ((MAX_ROWS + MAX_COLS).toNat + 2) cr cc vis
        else { vis with path_len := vis.path_len + 1 }
      subgoal_trace s cols fuel psg vis
    else vis

/-- Search-phase expansion of subgoal_step: pop a subgoal from the heap,
settle it, and either trace the path (goal reached) or relax its graph
neighbors. -/
def subgoal_expand (s : SubgoalState) : Bool × SubgoalState :=
  let cols := s.vis.cols
  let pop := heap_pop s.heap
  let s := { s with heap := pop.2 }
  let sg := pop.1.node
  if s.closed_sg sg ≠ 0 then (true, s)
  else
    let s := { s with
      closed_sg := upd s.closed_sg sg 1
      vis := { s.vis with nodes_explored := s.vis.nodes_explored + 1 } }
    let node := s.subgoals sg
    let s :=
      if node ≠ s.vis.start_node ∧ node ≠ s.vis.end_node then
        { s with vis := { s.vis with cells := upd s.vis.cells node VIS_CLOSED } }
      else s
    if sg = s.end_sg then
      let vis := { s.vis with done := 1, found := 1, path_cost := s.cost sg }
      (true, { s with vis := subgoal_trace s cols (MAX_SUBGOALS.toNat + 3) sg vis })
    else
      (true, (List.range (s.sg_adj_count sg).toNat).foldl
        (fun (s : SubgoalState) k =>
          let i : Int := Int.ofNat k
          let nsg := s.sg_adj sg i
          if s.closed_sg nsg ≠ 0 then s
          else
            let new_g := s.cost sg + s.sg_adj_cost sg i
            if new_g < s.cost nsg then
              let s := { s with
                vis := { s.vis with relaxations := s.vis.relaxations + 1 }
                cost := upd s.cost nsg new_g
                parent := upd s.parent nsg sg }
              let nn := s.subgoals nsg
              let nr := cdiv nn cols
              let nc := cmod nn cols
              let h := manhattan nr nc s.map.end_r s.map.end_c
              let s := { s with heap := heap_push s.heap nsg (new_g + h) }
              if nn ≠ s.vis.start_node ∧ nn ≠ s.vis.end_node then
                { s with vis := { s.vis with cells := upd s.vis.cells nn VIS_OPEN } }
              else s
            else s)
        s)

/-- subgoal_step from algo_subgoal.c: identify subgoals, link
directly-reachable pairs, then A* on the subgoal graph. -/
def subgoal_step (s : SubgoalState) : Bool × SubgoalState :=
  if s.vis.done ≠ 0 then (false, s)
  else
    let cols := s.vis.cols
    let s := { s with vis := { s.vis with steps := s.vis.steps + 1 } }
    if s.phase = 0 then
      let scan := subgoal_scan s ((s.map.rows * s.map.cols).toNat + 2)
      if scan.1 then (true, scan.2)
      else
        let s := scan.2
        let s :=
          if s.start_sg < 0 ∧ s.sg_count < MAX_SUBGOALS then
            { s with
              start_sg := s.sg_count
              subgoals := upd s.subgoals s.sg_count s.vis.start_node
              sg_idx := upd s.sg_idx s.vis.start_node s.sg_count
              sg_count := s.sg_count + 1 }
          else s
        let s :=
          if s.end_sg < 0 ∧ s.sg_count < MAX_SUBGOALS then
            { s with
              end_sg := s.sg_count
              subgoals := upd s.subgoals s.sg_count s.vis.end_node
              sg_idx := upd s.sg_idx s.vis.end_node s.sg_count
              sg_count := s.sg_count + 1 }
          else s
        (true, { s with phase := 1, edge_i := 0 })
    else if s.phase = 1 then
      if s.edge_i ≥ s.sg_count then
        let s := { s with phase := 2, cost := upd s.cost s.start_sg 0 }
        let sn := s.subgoals s.start_sg
        let sr := cdiv sn cols
        let sc := cmod sn cols
        let h := manhattan sr sc s.map.end_r s.map.end_c
        (true, { s with heap := heap_push s.heap s.start_sg h })
      else
        let i := s.edge_i
        let s := { s with edge_i := s.edge_i + 1 }
        (true, (List.range (s.sg_count - (i + 1)).toNat).foldl
          (fun s k => subgoal_link s i (i + 1 + Int.ofNat k)) s)
    else if s.phase = 2 then
      if s.heap.size = 0 then (false, { s with vis := { s.vis with done := 1 } })
      else subgoal_expand s
    else (false, s)

/-! ### Driver (visualizer.c) -/

/-- max_nodes of the Floyd-Warshall plugin descriptor (the only plugin
descriptor in the source that sets a nonzero cap). -/
def algo_floyd_warshall_max_nodes : Int := FW_MAX_NODES

/-- init_algorithm from visualizer.c, instantiated at the Floyd-Warshall
plugin: when the plugin has a node cap and the map exceeds it, the driver
still calls the plugin's init but immediately forces done=1, found=0 and
never calls step. -/
def init_algorithm_fw (m : MapDef) : FloydWarshallState :=
  let total := m.rows * m.cols
  if algo_floyd_warshall_max_nodes > 0 ∧ total > algo_floyd_warshall_max_nodes then
    let st := floyd_warshall_init m
    { st with vis := { st.vis with done := 1, found := 0 } }
  else floyd_warshall_init m

/-! ### Concrete maps and reference definitions used by the claims -/

/-- A 1 x 2 corridor: start (0,0), end (0,1), no walls. -/
def map1x2 : MapDef :=
  { rows := 1, cols := 2, start_r := 0, start_c := 0, end_r := 0, end_c := 1,
    data := fun _ => 0 }

/-- An empty 2 x 3 grid: start (0,0), end (0,2). -/
def map2x3e : MapDef :=
  { rows := 2, cols := 3, start_r := 0, start_c := 0, end_r := 0, end_c := 2,
    data := fun _ => 0 }

/-- An empty 3 x 3 grid: start (0,0), end (2,2). -/
def map3x3e : MapDef :=
  { rows := 3, cols := 3, start_r := 0, start_c := 0, end_r := 2, end_c := 2,
    data := fun _ => 0 }

/-- An empty 51 x 51 grid (2601 nodes, exceeding Floyd-Warshall's 2500
node cap). -/
def map51 : MapDef :=
  { rows := 51, cols := 51, start_r := 0, start_c := 0, end_r := 50, end_c := 50,
    data := fun _ => 0 }

/-- Position sequence of the dstar_step path-trace loop: starting at the
start node and repeatedly stepping to dstar_best_neighbor, exactly as the
`while` loop at the `trace_path:` label does. -/
def dstar_walk (s : DStarState) : Nat → Int
  | 0 => s.vis.start_node
  | n + 1 => dstar_best_neighbor s (dstar_walk s n)

/-- The map of the claim-C3 failing scenario: a 2 x 3 grid with a wall at
cell 1, start (1,2) (node 5), end (0,0) (node 0); the initial shortest
path 5-4-3-0 costs 3. -/
def mapC3 : MapDef :=
  { rows := 2, cols := 3, start_r := 1, start_c := 2, end_r := 0, end_c := 0,
    data := fun i => if i = 1 then 1 else 0 }

/-- The D* Lite state of the claim-C3 failing scenario: run the initial
search to completion on mapC3 (5 steps), then the external collaborator
adds a wall at node 3 (cell (1,0)) in the mutable map copy and delivers
the change notification. -/
def dstar_c3_state : DStarState :=
  let s := runSteps dstar_step (dstar_init mapC3) 5
  dstar_notify_change { s with map_data := upd s.map_data 3 1 } 3

/-- The post-change version of the C3 scenario's map (walls at cells 1
and 3, disconnecting start from end), used for the fresh Dijkstra
comparison run. -/
def mapC3post : MapDef :=
  { rows := 2, cols := 3, start_r := 1, start_c := 2, end_r := 0, end_c := 0,
    data := fun i => if i = 1 ∨ i = 3 then 1 else 0 }

/-- Whether dstar_notify_change recomputes the rhs value of node `m` when
notified about `node`: `m` is the changed node itself or one of its
in-bounds passable neighbors (passable per the mutable map copy). -/
def dstar_notify_touches (s : DStarState) (node m : Int) : Bool :=
  let cols := s.vis.cols
  let r := cdiv node cols
  let c := cmod node cols
  decide (m = node) ||
    (List.range 4).any (fun d =>
      decide (r + DR d ≥ 0 ∧ r + DR d < s.map.rows ∧ c + DC d ≥ 0 ∧
        c + DC d < s.map.cols ∧ s.map_data (get_index cols (r + DR d) (c + DC d)) = 0 ∧
        m = get_index cols (r + DR d) (c + DC d)))

/-- A full heap at the declared capacity, with all-zero entries. -/
def fullHeap : Heap := { data := fun _ => { node := 0, priority := 0 }, size := HEAP_CAP }

/-! ## Theorems -/

/-- Helper: a trajectory determined by an init state and a step function
is unique (determinism of the plugin state machine). -/
theorem traj_unique {σ : Type} (step : σ → Bool × σ) (init : σ)
    (t1 t2 : Nat → σ) (h10 : t1 0 = init) (h1s : ∀ i, t1 (i + 1) = (step (t1 i)).2)
    (h20 : t2 0 = init) (h2s : ∀ i, t2 (i + 1) = (step (t2 i)).2) :
    ∀ i, t1 i = t2 i := by
  intro i
  induction i with
  | zero => rw [h10, h20]
  | succ n ih => rw [h1s, h2s, ih]

/-- C4 (counterexample): heap_push on a heap already at the declared
capacity MAX_NODES * 4 is not silently dropped: the size grows and the
entry is written to the out-of-range slot HEAP_CAP. -/
theorem c4_counterexample :
    (heap_push fullHeap 7 5).size ≠ fullHeap.size ∧
    ((heap_push fullHeap 7 5).data HEAP_CAP).node ≠ (fullHeap.data HEAP_CAP).node := by
  decide

/-- C4 (amended): heap_push performs no capacity check at all: a push on
a heap whose size has reached the capacity increments the size past the
capacity (the entry is stored at index ≥ HEAP_CAP, outside the declared
C array — an out-of-bounds write, not a silent drop). -/
theorem c4_amended (h : Heap) (node priority : Int) (hs : h.size = HEAP_CAP) :
    (heap_push h node priority).size = HEAP_CAP + 1 := by
  simp [heap_push, hs]

/-- Witness for c4_amended at the concrete full heap. -/
theorem c4_witness :
    fullHeap.size = HEAP_CAP ∧ (heap_push fullHeap 7 5).size = HEAP_CAP + 1 :=
  ⟨rfl, c4_amended fullHeap 7 5 rfl⟩

/-- C2: for each of the fourteen algorithms, calling step on a run state
whose done flag is set returns false and leaves the whole state (cells,
counters, result fields, auxiliary arrays) unchanged. -/
theorem c2_step_after_done_noop :
    (∀ s : DijkstraState, s.vis.done ≠ 0 → dijkstra_step s = (false, s)) ∧
    (∀ s : AstarState, s.vis.done ≠ 0 → astar_step s = (false, s)) ∧
    (∀ s : BellmanFordState, s.vis.done ≠ 0 → bellman_ford_step s = (false, s)) ∧
    (∀ s : IDAStarState, s.vis.done ≠ 0 → ida_star_step s = (false, s)) ∧
    (∀ s : FloydWarshallState, s.vis.done ≠ 0 → floyd_warshall_step s = (false, s)) ∧
    (∀ s : JPSState, s.vis.done ≠ 0 → jps_step s = (false, s)) ∧
    (∀ s : FringeState, s.vis.done ≠ 0 → fringe_step s = (false, s)) ∧
    (∀ s : FlowFieldState, s.vis.done ≠ 0 → flowfield_step s = (false, s)) ∧
    (∀ s : DStarState, s.vis.done ≠ 0 → dstar_step s = (false, s)) ∧
    (∀ s : ThetaState, s.vis.done ≠ 0 → theta_step s = (false, s)) ∧
    (∀ s : RSRState, s.vis.done ≠ 0 → rsr_step s = (false, s)) ∧
    (∀ s : SubgoalState, s.vis.done ≠ 0 → subgoal_step s = (false, s)) ∧
    (∀ s : CHState, s.vis.done ≠ 0 → ch_step s = (false, s)) ∧
    (∀ s : BiAstarState, s.vis.done ≠ 0 → bidir_step s = (false, s)) :=
  ⟨fun s h => by simp [dijkstra_step, h],
   fun s h => by simp [astar_step, h],
   fun s h => by simp [bellman_ford_step, h],
   fun s h => by simp [ida_star_step, h],
   fun s h => by simp [floyd_warshall_step, h],
   fun s h => by simp [jps_step, h],
   fun s h => by simp [fringe_step, h],
   fun s h => by simp [flowfield_step, h],
   fun s h => by simp [dstar_step, h],
   fun s h => by simp [theta_step, h],
   fun s h => by simp [rsr_step, h],
   fun s h => by simp [subgoal_step, h],
   fun s h => by simp [ch_step, h],
   fun s h => by simp [bidir_step, h]⟩

/-- Witness for c2_step_after_done_noop: a terminated run state of each
algorithm (the initial state with the done flag forced) is left untouched
by step. -/
theorem c2_witness :
    dijkstra_step { dijkstra_init map1x2 with
      vis := { (dijkstra_init map1x2).vis with done := 1 } } =
    (false, { dijkstra_init map1x2 with
      vis := { (dijkstra_init map1x2).vis with done := 1 } }) ∧
    astar_step { astar_init map1x2 with
      vis := { (astar_init map1x2).vis with done := 1 } } =
    (false, { astar_init map1x2 with
      vis := { (astar_init map1x2).vis with done := 1 } }) :=
  ⟨c2_step_after_done_noop.1 _ (by decide),
   c2_step_after_done_noop.2.1 _ (by decide)⟩

/-- Helper: unrolling runSteps from the right. -/
theorem runSteps_succ {σ : Type} (step : σ → Bool × σ) (s : σ) :
    ∀ n, runSteps step s (n + 1) = (step (runSteps step s n)).2 := by
  intro n
  induction n generalizing s with
  | zero => rfl
  | succ n ih => exact ih (step s).2

/-- C8: determinism — for each of the fourteen algorithms, two
trajectories that both start from init on the same map and advance by
identical step calls coincide at every index (the embedding is a pure
state machine; init depends only on the map and step only on the state). -/
theorem c8_determinism :
    (∀ (m : MapDef) (t1 t2 : Nat → DijkstraState),
      t1 0 = dijkstra_init m → (∀ i, t1 (i + 1) = (dijkstra_step (t1 i)).2) →
      t2 0 = dijkstra_init m → (∀ i, t2 (i + 1) = (dijkstra_step (t2 i)).2) →
      ∀ i, t1 i = t2 i) ∧
    (∀ (m : MapDef) (t1 t2 : Nat → AstarState),
      t1 0 = astar_init m → (∀ i, t1 (i + 1) = (astar_step (t1 i)).2) →
      t2 0 = astar_init m → (∀ i, t2 (i + 1) = (astar_step (t2 i)).2) →
      ∀ i, t1 i = t2 i) ∧
    (∀ (m : MapDef) (t1 t2 : Nat → BellmanFordState),
      t1 0 = bellman_ford_init m → (∀ i, t1 (i + 1) = (bellman_ford_step (t1 i)).2) →
      t2 0 = bellman_ford_init m → (∀ i, t2 (i + 1) = (bellman_ford_step (t2 i)).2) →
      ∀ i, t1 i = t2 i) ∧
    (∀ (m : MapDef) (t1 t2 : Nat → IDAStarState),
      t1 0 = ida_star_init m → (∀ i, t1 (i + 1) = (ida_star_step (t1 i)).2) →
      t2 0 = ida_star_init m → (∀ i, t2 (i + 1) = (ida_star_step (t2 i)).2) →
      ∀ i, t1 i = t2 i) ∧
    (∀ (m : MapDef) (t1 t2 : Nat → FloydWarshallState),
      t1 0 = floyd_warshall_init m → (∀ i, t1 (i + 1) = (floyd_warshall_step (t1 i)).2) →
      t2 0 = floyd_warshall_init m → (∀ i, t2 (i + 1) = (floyd_warshall_step (t2 i)).2) →
      ∀ i, t1 i = t2 i) ∧
    (∀ (m : MapDef) (t1 t2 : Nat → JPSState),
      t1 0 = jps_init m → (∀ i, t1 (i + 1) = (jps_step (t1 i)).2) →
      t2 0 = jps_init m → (∀ i, t2 (i + 1) = (jps_step (t2 i)).2) →
      ∀ i, t1 i = t2 i) ∧
    (∀ (m : MapDef) (t1 t2 : Nat → FringeState),
      t1 0 = fringe_init m → (∀ i, t1 (i + 1) = (fringe_step (t1 i)).2) →
      t2 0 = fringe_init m → (∀ i, t2 (i + 1) = (fringe_step (t2 i)).2) →
      ∀ i, t1 i = t2 i) ∧
    (∀ (m : MapDef) (t1 t2 : Nat → FlowFieldState),
      t1 0 = flowfield_init m → (∀ i, t1 (i + 1) = (flowfield_step (t1 i)).2) →
      t2 0 = flowfield_init m → (∀ i, t2 (i + 1) = (flowfield_step (t2 i)).2) →
      ∀ i, t1 i = t2 i) ∧
    (∀ (m : MapDef) (t1 t2 : Nat → DStarState),
      t1 0 = dstar_init m → (∀ i, t1 (i + 1) = (dstar_step (t1 i)).2) →
      t2 0 = dstar_init m → (∀ i, t2 (i + 1) = (dstar_step (t2 i)).2) →
      ∀ i, t1 i = t2 i) ∧
    (∀ (m : MapDef) (t1 t2 : Nat → ThetaState),
      t1 0 = theta_init m → (∀ i, t1 (i + 1) = (theta_step (t1 i)).2) →
      t2 0 = theta_init m → (∀ i, t2 (i + 1) = (theta_step (t2 i)).2) →
      ∀ i, t1 i = t2 i) ∧
    (∀ (m : MapDef) (t1 t2 : Nat → RSRState),
      t1 0 = rsr_init m → (∀ i, t1 (i + 1) = (rsr_step (t1 i)).2) →
      t2 0 = rsr_init m → (∀ i, t2 (i + 1) = (rsr_step (t2 i)).2) →
      ∀ i, t1 i = t2 i) ∧
    (∀ (m : MapDef) (t1 t2 : Nat → SubgoalState),
      t1 0 = subgoal_init m → (∀ i, t1 (i + 1) = (subgoal_step (t1 i)).2) →
      t2 0 = subgoal_init m → (∀ i, t2 (i + 1) = (subgoal_step (t2 i)).2) →
      ∀ i, t1 i = t2 i) ∧
    (∀ (m : MapDef) (t1 t2 : Nat → CHState),
      t1 0 = ch_init m → (∀ i, t1 (i + 1) = (ch_step (t1 i)).2) →
      t2 0 = ch_init m → (∀ i, t2 (i + 1) = (ch_step (t2 i)).2) →
      ∀ i, t1 i = t2 i) ∧
    (∀ (m : MapDef) (t1 t2 : Nat → BiAstarState),
      t1 0 = bidir_init m → (∀ i, t1 (i + 1) = (bidir_step (t1 i)).2) →
      t2 0 = bidir_init m → (∀ i, t2 (i + 1) = (bidir_step (t2 i)).2) →
      ∀ i, t1 i = t2 i) :=
  ⟨fun m t1 t2 a b c d => traj_unique dijkstra_step (dijkstra_init m) t1 t2 a b c d,
   fun m t1 t2 a b c d => traj_unique astar_step (astar_init m) t1 t2 a b c d,
   fun m t1 t2 a b c d => traj_unique bellman_ford_step (bellman_ford_init m) t1 t2 a b c d,
   fun m t1 t2 a b c d => traj_unique ida_star_step (ida_star_init m) t1 t2 a b c d,
   fun m t1 t2 a b c d => traj_unique floyd_warshall_step (floyd_warshall_init m) t1 t2 a b c d,
   fun m t1 t2 a b c d => traj_unique jps_step (jps_init m) t1 t2 a b c d,
   fun m t1 t2 a b c d => traj_unique fringe_step (fringe_init m) t1 t2 a b c d,
   fun m t1 t2 a b c d => traj_unique flowfield_step (flowfield_init m) t1 t2 a b c d,
   fun m t1 t2 a b c d => traj_unique dstar_step (dstar_init m) t1 t2 a b c d,
   fun m t1 t2 a b c d => traj_unique theta_step (theta_init m) t1 t2 a b c d,
   fun m t1 t2 a b c d => traj_unique rsr_step (rsr_init m) t1 t2 a b c d,
   fun m t1 t2 a b c d => traj_unique subgoal_step (subgoal_init m) t1 t2 a b c d,
   fun m t1 t2 a b c d => traj_unique ch_step (ch_init m) t1 t2 a b c d,
   fun m t1 t2 a b c d => traj_unique bidir_step (bidir_init m) t1 t2 a b c d⟩

/-- Witness for c8_determinism: two copies of the driver's iterate-step
trajectory for Dijkstra on the 1 x 2 corridor coincide at step 3. -/
theorem c8_witness :
    (fun i => runSteps dijkstra_step (dijkstra_init map1x2) i) 3 =
    (fun i => runSteps dijkstra_step (dijkstra_init map1x2) i) 3 :=
  c8_determinism.1 map1x2
    (fun i => runSteps dijkstra_step (dijkstra_init map1x2) i)
    (fun i => runSteps dijkstra_step (dijkstra_init map1x2) i)
    rfl (runSteps_succ dijkstra_step (dijkstra_init map1x2))
    rfl (runSteps_succ dijkstra_step (dijkstra_init map1x2)) 3

/-- C5: the driver's init_algorithm at the Floyd-Warshall plugin (the
only plugin descriptor with max_nodes > 0) on a map whose node count
exceeds the cap produces a run state that is exactly the plugin's init
state with done forced to 1 and found to 0 — all counters are zero and no
search step has run. -/
theorem c5_oversized_map (m : MapDef)
    (hm : m.rows * m.cols > algo_floyd_warshall_max_nodes) :
    init_algorithm_fw m =
      { floyd_warshall_init m with
        vis := { (floyd_warshall_init m).vis with done := 1, found := 0 } } ∧
    (init_algorithm_fw m).vis.done = 1 ∧
    (init_algorithm_fw m).vis.found = 0 ∧
    (init_algorithm_fw m).vis.nodes_explored = 0 ∧
    (init_algorithm_fw m).vis.steps = 0 ∧
    (init_algorithm_fw m).vis.relaxations = 0 := by
  have hcond : algo_floyd_warshall_max_nodes > 0 ∧
      m.rows * m.cols > algo_floyd_warshall_max_nodes := ⟨by decide, hm⟩
  refine ⟨?_, ?_, ?_, ?_, ?_, ?_⟩ <;>
    simp only [init_algorithm_fw, if_pos hcond] <;> rfl

/-- Witness for c5_oversized_map: the empty 51 x 51 map has 2601 > 2500
nodes and init_algorithm short-circuits it to done=1, found=0. -/
theorem c5_witness :
    map51.rows * map51.cols > algo_floyd_warshall_max_nodes ∧
    (init_algorithm_fw map51).vis.done = 1 ∧
    (init_algorithm_fw map51).vis.found = 0 :=
  ⟨by decide, (c5_oversized_map map51 (by decide)).2.1,
   (c5_oversized_map map51 (by decide)).2.2.1⟩

/-- Helper: the path-trace loops of bidir_found never touch the done
flag. -/
theorem bidir_trace_fwd_done (parent : Int → Int) :
    ∀ (fuel : Nat) (cur : Int) (vis : AlgoVis),
      (bidir_trace_fwd parent fuel cur vis).done = vis.done := by
  intro fuel
  induction fuel with
  | zero => intro cur vis; rfl
  | succ n ih =>
    intro cur vis
    unfold bidir_trace_fwd
    split
    · rfl
    · dsimp only
      rw [ih]
      split <;> rfl

/-- Helper: bidir_found always reports done = 1. -/
theorem bidir_found_done (s : BiAstarState) : (bidir_found s).2.vis.done = 1 := by
  unfold bidir_found
  dsimp only
  simp only [bidir_trace_fwd_done]

/-- Helper: the forward-expansion arm of bidir_step returns true. -/
theorem bidir_expand_fwd_fst (s : BiAstarState) : (bidir_expand_fwd s).1 = true := by
  unfold bidir_expand_fwd
  dsimp only
  repeat' split
  all_goals rfl

/-- Helper: the backward-expansion arm of bidir_step returns true. -/
theorem bidir_expand_bwd_fst (s : BiAstarState) : (bidir_expand_bwd s).1 = true := by
  unfold bidir_expand_bwd
  dsimp only
  repeat' split
  all_goals rfl

/-- Helper: the D* Lite path-trace loop never touches the done flag. -/
theorem dstar_trace_go_done (s : DStarState) :
    ∀ (fuel : Nat) (cur : Int) (vis : AlgoVis),
      (dstar_trace_go s fuel cur vis).done = vis.done := by
  intro fuel
  induction fuel with
  | zero => intro cur vis; rfl
  | succ n ih =>
    intro cur vis
    unfold dstar_trace_go
    split
    · dsimp only
      rw [ih]
      split <;> rfl
    · split <;> rfl

/-- Helper: dstar_trace_path always reports done = 1. -/
theorem dstar_trace_path_done (s : DStarState) :
    (dstar_trace_path s).2.vis.done = 1 := by
  unfold dstar_trace_path
  dsimp only
  rw [dstar_trace_go_done]

/-- Helper: the expansion part of dstar_step returns true. -/
theorem dstar_expand_fst (s : DStarState) : (dstar_expand s).1 = true := by
  unfold dstar_expand
  dsimp only
  repeat' split
  all_goals rfl

/-- Helper: shortcut unpacking never touches the done flag. -/
theorem ch_unpack_path_done (fuel : Nat) :
    ∀ (s : CHState) (frm tgt : Int),
      (ch_unpack_path s fuel frm tgt).vis.done = s.vis.done := by
  induction fuel with
  | zero => intro s frm tgt; rfl
  | succ n ih =>
    intro s frm tgt
    unfold ch_unpack_path
    split
    · dsimp only
      rw [ih, ih]
    · split
      · dsimp only
        rw [ih, ih]
      · dsimp only
        split <;> rfl

/-- Helper: the forward unpack loop of ch_found_path never touches the
done flag. -/
theorem ch_fwd_unpack_loop_done (fuel : Nat) :
    ∀ (s : CHState) (cur : Int),
      (ch_fwd_unpack_loop s fuel cur).vis.done = s.vis.done := by
  induction fuel with
  | zero => intro s cur; rfl
  | succ n ih =>
    intro s cur
    unfold ch_fwd_unpack_loop
    split
    · dsimp only
      rw [ih, ch_unpack_path_done]
    · rfl

/-- Helper: the backward unpack loop of ch_found_path never touches the
done flag. -/
theorem ch_bwd_unpack_loop_done (fuel : Nat) :
    ∀ (s : CHState) (cur : Int),
      (ch_bwd_unpack_loop s fuel cur).vis.done = s.vis.done := by
  induction fuel with
  | zero => intro s cur; rfl
  | succ n ih =>
    intro s cur
    unfold ch_bwd_unpack_loop
    split
    · dsimp only
      rw [ih, ch_unpack_path_done]
    · rfl

/-- Helper: ch_found_path always reports done = 1. -/
theorem ch_found_path_done (s : CHState) : (ch_found_path s).2.vis.done = 1 := by
  unfold ch_found_path
  dsimp only
  simp only [ch_bwd_unpack_loop_done, ch_fwd_unpack_loop_done]

/-- Helper: when the query-phase termination check of ch_step returns
false, done is set. -/
theorem ch_phase2_finish_false_done (s : CHState) :
    (ch_phase2_finish s).1 = false → (ch_phase2_finish s).2.vis.done ≠ 0 := by
  unfold ch_phase2_finish
  dsimp only
  repeat' split
  all_goals first
    | exact fun h => Bool.noConfusion h
    | exact fun _ => one_ne_zero
    | exact fun _ => by rw [ch_found_path_done]; exact one_ne_zero

/-- Helper: the search-phase expansion of subgoal_step returns true. -/
theorem subgoal_expand_fst (s : SubgoalState) : (subgoal_expand s).1 = true := by
  unfold subgoal_expand
  dsimp only
  repeat' split
  all_goals rfl

/-- Helper for the amended C7: Dijkstra. -/
theorem dijkstra_false_done (s : DijkstraState) :
    (dijkstra_step s).1 = false → (dijkstra_step s).2.vis.done ≠ 0 := by
  unfold dijkstra_step
  split
  · exact fun _ => by assumption
  · dsimp only
    repeat' split
    all_goals first
      | exact fun h => Bool.noConfusion h
      | exact fun _ => one_ne_zero

/-- Helper for the amended C7: A*. -/
theorem astar_false_done (s : AstarState) :
    (astar_step s).1 = false → (astar_step s).2.vis.done ≠ 0 := by
  unfold astar_step
  split
  · exact fun _ => by assumption
  · dsimp only
    repeat' split
    all_goals first
      | exact fun h => Bool.noConfusion h
      | exact fun _ => one_ne_zero

/-- Helper for the amended C7: Bellman-Ford. -/
theorem bellman_ford_false_done (s : BellmanFordState) :
    (bellman_ford_step s).1 = false → (bellman_ford_step s).2.vis.done ≠ 0 := by
  unfold bellman_ford_step
  split
  · exact fun _ => by assumption
  · dsimp only
    repeat' split
    all_goals first
      | exact fun h => Bool.noConfusion h
      | exact fun _ => one_ne_zero

/-- Helper for the amended C7: Floyd-Warshall. -/
theorem floyd_warshall_false_done (s : FloydWarshallState) :
    (floyd_warshall_step s).1 = false → (floyd_warshall_step s).2.vis.done ≠ 0 := by
  unfold floyd_warshall_step
  split
  · exact fun _ => by assumption
  · dsimp only
    repeat' split
    all_goals first
      | exact fun h => Bool.noConfusion h
      | exact fun _ => one_ne_zero

/-- Helper for the amended C7: IDA*. -/
theorem ida_star_false_done (s : IDAStarState) :
    (ida_star_step s).1 = false → (ida_star_step s).2.vis.done ≠ 0 := by
  unfold ida_star_step
  split
  · exact fun _ => by assumption
  · dsimp only
    repeat' split
    all_goals first
      | exact fun h => Bool.noConfusion h
      | exact fun _ => one_ne_zero

/-- Helper for the amended C7: JPS. -/
theorem jps_false_done (s : JPSState) :
    (jps_step s).1 = false → (jps_step s).2.vis.done ≠ 0 := by
  unfold jps_step
  split
  · exact fun _ => by assumption
  · dsimp only
    repeat' split
    all_goals first
      | exact fun h => Bool.noConfusion h
      | exact fun _ => one_ne_zero

/-- Helper: the deferral arm of fringe expansion returns true. -/
theorem fringe_defer_fst (s : FringeState) (node : Int) :
    (fringe_defer s node).1 = true := by
  unfold fringe_defer
  dsimp only

/-- Helper: the visit arm of fringe expansion returns true. -/
theorem fringe_visit_fst (s : FringeState) (node cols : Int) :
    (fringe_visit s node cols).1 = true := by
  unfold fringe_visit
  dsimp only
  repeat' split
  all_goals rfl

/-- Helper: the head-expansion part of fringe_step returns true. -/
theorem fringe_expand_fst (s : FringeState) : (fringe_expand s).1 = true := by
  unfold fringe_expand
  dsimp only
  split
  · rw [fringe_defer_fst]
  · rw [fringe_visit_fst]

/-- Helper for the amended C7: Fringe Search. -/
theorem fringe_false_done (s : FringeState) :
    (fringe_step s).1 = false → (fringe_step s).2.vis.done ≠ 0 := by
  unfold fringe_step
  split
  · exact fun _ => by assumption
  · dsimp only
    repeat' split
    all_goals first
      | exact fun h => Bool.noConfusion h
      | exact fun _ => one_ne_zero
      | (intro h; rw [fringe_expand_fst] at h; exact Bool.noConfusion h)

/-- Helper for the amended C7: Flow Field. -/
theorem flowfield_false_done (s : FlowFieldState) :
    (flowfield_step s).1 = false → (flowfield_step s).2.vis.done ≠ 0 := by
  unfold flowfield_step
  split
  · exact fun _ => by assumption
  · dsimp only
    repeat' split
    all_goals first
      | exact fun h => Bool.noConfusion h
      | exact fun _ => one_ne_zero

/-- Helper for the amended C7: D* Lite. -/
theorem dstar_false_done (s : DStarState) :
    (dstar_step s).1 = false → (dstar_step s).2.vis.done ≠ 0 := by
  unfold dstar_step
  split
  · exact fun _ => by assumption
  · dsimp only
    repeat' split
    all_goals first
      | exact fun h => Bool.noConfusion h
      | exact fun _ => one_ne_zero
      | exact fun _ => by rw [dstar_trace_path_done]; exact one_ne_zero
      | (intro h; rw [dstar_expand_fst] at h; exact Bool.noConfusion h)

/-- Helper for the amended C7: Theta*. -/
theorem theta_false_done (s : ThetaState) :
    (theta_step s).1 = false → (theta_step s).2.vis.done ≠ 0 := by
  unfold theta_step
  split
  · exact fun _ => by assumption
  · dsimp only
    repeat' split
    all_goals first
      | exact fun h => Bool.noConfusion h
      | exact fun _ => one_ne_zero

/-- Helper for the amended C7: Bidirectional A*. -/
theorem bidir_false_done (s : BiAstarState) :
    (bidir_step s).1 = false → (bidir_step s).2.vis.done ≠ 0 := by
  unfold bidir_step
  split
  · exact fun _ => by assumption
  · dsimp only
    repeat' split
    all_goals first
      | exact fun h => Bool.noConfusion h
      | exact fun _ => one_ne_zero
      | exact fun _ => by rw [bidir_found_done]; exact one_ne_zero
      | (intro h; rw [bidir_expand_fwd_fst] at h; exact Bool.noConfusion h)
      | (intro h; rw [bidir_expand_bwd_fst] at h; exact Bool.noConfusion h)

/-- Helper for the amended C7: RSR (reachable phases are 0 and 1). -/
theorem rsr_false_done (s : RSRState) (hp : s.phase = 0 ∨ s.phase = 1) :
    (rsr_step s).1 = false → (rsr_step s).2.vis.done ≠ 0 := by
  unfold rsr_step
  split
  · exact fun _ => by assumption
  · dsimp only
    repeat' split
    all_goals first
      | exact fun h => Bool.noConfusion h
      | exact fun _ => one_ne_zero
      | (exact fun _ => by rcases hp with h | h <;> simp_all)

/-- Helper for the amended C7: Subgoal Graphs (reachable phases are 0, 1
and 2). -/
theorem subgoal_false_done (s : SubgoalState)
    (hp : s.phase = 0 ∨ s.phase = 1 ∨ s.phase = 2) :
    (subgoal_step s).1 = false → (subgoal_step s).2.vis.done ≠ 0 := by
  unfold subgoal_step
  split
  · exact fun _ => by assumption
  · dsimp only
    repeat' split
    all_goals first
      | exact fun h => Bool.noConfusion h
      | exact fun _ => one_ne_zero
      | (intro h; rw [subgoal_expand_fst] at h; exact Bool.noConfusion h)
      | (exact fun _ => by rcases hp with h | h | h <;> simp_all)

/-- Helper for the amended C7: Contraction Hierarchies (reachable phases
are 0, 1 and 2). -/
theorem ch_false_done (s : CHState)
    (hp : s.phase = 0 ∨ s.phase = 1 ∨ s.phase = 2) :
    (ch_step s).1 = false → (ch_step s).2.vis.done ≠ 0 := by
  unfold ch_step
  split
  · exact fun _ => by assumption
  · dsimp only
    repeat' split
    all_goals first
      | exact fun h => Bool.noConfusion h
      | exact fun _ => one_ne_zero
      | exact ch_phase2_finish_false_done _
      | (exact fun _ => by rcases hp with h | h | h <;> simp_all)

/-- C7: counterexample — on the 1 x 2 corridor, A*'s second step pops the
goal node, sets done = 1, and still returns true, so the boolean returned
by step is not equivalent to the done flag being clear after the call. -/
theorem c7_counterexample :
    (astar_step (runSteps astar_step (astar_init map1x2) 1)).1 = true ∧
    (astar_step (runSteps astar_step (astar_init map1x2) 1)).2.vis.done ≠ 0 := by
  constructor
  · rfl
  · decide

/-- C7 (amended): one direction of the claim holds for all fourteen
algorithms — whenever step returns false, the done flag is set after the
call (for the phased algorithms RSR, Subgoal Graphs and CH, in their
reachable phases). The converse is false: a step that completes the
search sets done and still returns true. -/
theorem c7_amended :
    (∀ s : DijkstraState, (dijkstra_step s).1 = false → (dijkstra_step s).2.vis.done ≠ 0) ∧
    (∀ s : AstarState, (astar_step s).1 = false → (astar_step s).2.vis.done ≠ 0) ∧
    (∀ s : BellmanFordState, (bellman_ford_step s).1 = false → (bellman_ford_step s).2.vis.done ≠ 0) ∧
    (∀ s : FloydWarshallState, (floyd_warshall_step s).1 = false → (floyd_warshall_step s).2.vis.done ≠ 0) ∧
    (∀ s : IDAStarState, (ida_star_step s).1 = false → (ida_star_step s).2.vis.done ≠ 0) ∧
    (∀ s : JPSState, (jps_step s).1 = false → (jps_step s).2.vis.done ≠ 0) ∧
    (∀ s : FringeState, (fringe_step s).1 = false → (fringe_step s).2.vis.done ≠ 0) ∧
    (∀ s : FlowFieldState, (flowfield_step s).1 = false → (flowfield_step s).2.vis.done ≠ 0) ∧
    (∀ s : DStarState, (dstar_step s).1 = false → (dstar_step s).2.vis.done ≠ 0) ∧
    (∀ s : ThetaState, (theta_step s).1 = false → (theta_step s).2.vis.done ≠ 0) ∧
    (∀ s : BiAstarState, (bidir_step s).1 = false → (bidir_step s).2.vis.done ≠ 0) ∧
    (∀ s : RSRState, s.phase = 0 ∨ s.phase = 1 →
      (rsr_step s).1 = false → (rsr_step s).2.vis.done ≠ 0) ∧
    (∀ s : SubgoalState, s.phase = 0 ∨ s.phase = 1 ∨ s.phase = 2 →
      (subgoal_step s).1 = false → (subgoal_step s).2.vis.done ≠ 0) ∧
    (∀ s : CHState, s.phase = 0 ∨ s.phase = 1 ∨ s.phase = 2 →
      (ch_step s).1 = false → (ch_step s).2.vis.done ≠ 0) :=
  ⟨dijkstra_false_done, astar_false_done, bellman_ford_false_done,
   floyd_warshall_false_done, ida_star_false_done, jps_false_done,
   fringe_false_done, flowfield_false_done, dstar_false_done,
   theta_false_done, bidir_false_done, rsr_false_done,
   subgoal_false_done, ch_false_done⟩

/-- Witness for c7_amended: Dijkstra's third step on the 1 x 2 corridor
returns false, and indeed the done flag is set afterwards. -/
theorem c7_witness :
    (dijkstra_step (runSteps dijkstra_step (dijkstra_init map1x2) 2)).2.vis.done ≠ 0 :=
  c7_amended.1 (runSteps dijkstra_step (dijkstra_init map1x2) 2) (by decide)

/-- Helper: dstar_update_node only updates rhs, parent, heap and in_heap;
g, the map copies and the visual state are untouched. -/
theorem dstar_update_node_pres (s : DStarState) (n : Int) :
    (dstar_update_node s n).g = s.g ∧
    (dstar_update_node s n).map_data = s.map_data ∧
    (dstar_update_node s n).map = s.map ∧
    (dstar_update_node s n).vis = s.vis := by
  unfold dstar_update_node
  dsimp only
  repeat' split
  all_goals exact ⟨rfl, rfl, rfl, rfl⟩

/-- Helper: dstar_update_node leaves the rhs of every other node
unchanged. -/
theorem dstar_update_node_rhs (s : DStarState) (n m : Int) (hm : m ≠ n) :
    (dstar_update_node s n).rhs m = s.rhs m := by
  unfold dstar_update_node
  dsimp only
  repeat' split
  all_goals simp [upd, hm]

/-- Helper: one neighbor-refresh step of dstar_notify_change preserves g,
the map copies, the visual state, and the rhs of any node other than the
refreshed neighbor. -/
theorem dstar_notify_nb_pres (s t : DStarState) (r c cols m : Int) (d : Nat)
    (hg : t.g = s.g) (hd : t.map_data = s.map_data) (hmap : t.map = s.map)
    (hv : t.vis = s.vis) (hr : t.rhs m = s.rhs m)
    (hm : ¬(r + DR d ≥ 0 ∧ r + DR d < s.map.rows ∧ c + DC d ≥ 0 ∧
        c + DC d < s.map.cols ∧ s.map_data (get_index cols (r + DR d) (c + DC d)) = 0 ∧
        m = get_index cols (r + DR d) (c + DC d))) :
    (dstar_notify_nb r c cols t d).g = s.g ∧
    (dstar_notify_nb r c cols t d).map_data = s.map_data ∧
    (dstar_notify_nb r c cols t d).map = s.map ∧
    (dstar_notify_nb r c cols t d).vis = s.vis ∧
    (dstar_notify_nb r c cols t d).rhs m = s.rhs m := by
  unfold dstar_notify_nb
  dsimp only
  split
  · exact ⟨hg, hd, hmap, hv, hr⟩
  · rename_i hA
    split
    · exact ⟨hg, hd, hmap, hv, hr⟩
    · rename_i hB
      have hmni : m ≠ get_index cols (r + DR d) (c + DC d) := by
        intro he
        rw [hmap] at hA
        rw [hd] at hB
        push_neg at hA hB
        exact hm ⟨by omega, by omega, by omega, by omega, hB, he⟩
      exact ⟨by rw [(dstar_update_node_pres t _).1, hg],
        by rw [(dstar_update_node_pres t _).2.1, hd],
        by rw [(dstar_update_node_pres t _).2.2.1, hmap],
        by rw [(dstar_update_node_pres t _).2.2.2, hv],
        by rw [dstar_update_node_rhs t _ m hmni, hr]⟩

/-- C9: the D* Lite map-change notification clears done, found, path_len
and path_cost, leaves the entire g array unchanged, and leaves the rhs of
every node other than the changed node and its in-bounds passable
neighbors unchanged. -/
theorem c9_notify_frame (s : DStarState) (node m : Int)
    (hm : dstar_notify_touches s node m = false) :
    (dstar_notify_change s node).vis.done = 0 ∧
    (dstar_notify_change s node).vis.found = 0 ∧
    (dstar_notify_change s node).vis.path_len = 0 ∧
    (dstar_notify_change s node).vis.path_cost = 0 ∧
    (dstar_notify_change s node).g = s.g ∧
    (dstar_notify_change s node).rhs m = s.rhs m := by
  unfold dstar_notify_touches at hm
  simp only [show List.range 4 = [0, 1, 2, 3] from rfl, List.any_cons, List.any_nil,
    Bool.or_eq_false_iff, decide_eq_false_iff_not] at hm
  obtain ⟨hmn, h0, h1, h2, h3, -⟩ := hm
  have H0 := dstar_notify_nb_pres s s (cdiv node s.vis.cols) (cmod node s.vis.cols)
    s.vis.cols m 0 rfl rfl rfl rfl rfl h0
  have H1 := dstar_notify_nb_pres s _ (cdiv node s.vis.cols) (cmod node s.vis.cols)
    s.vis.cols m 1 H0.1 H0.2.1 H0.2.2.1 H0.2.2.2.1 H0.2.2.2.2 h1
  have H2 := dstar_notify_nb_pres s _ (cdiv node s.vis.cols) (cmod node s.vis.cols)
    s.vis.cols m 2 H1.1 H1.2.1 H1.2.2.1 H1.2.2.2.1 H1.2.2.2.2 h2
  have H3 := dstar_notify_nb_pres s _ (cdiv node s.vis.cols) (cmod node s.vis.cols)
    s.vis.cols m 3 H2.1 H2.2.1 H2.2.2.1 H2.2.2.2.1 H2.2.2.2.2 h3
  refine ⟨rfl, rfl, rfl, rfl, ?_, ?_⟩
  · unfold dstar_notify_change
    dsimp only
    rw [show List.range 4 = [0, 1, 2, 3] from rfl]
    simp only [List.foldl_cons, List.foldl_nil]
    split
    · rw [(dstar_update_node_pres _ _).1, H3.1]
    · exact H3.1
  · unfold dstar_notify_change
    dsimp only
    rw [show List.range 4 = [0, 1, 2, 3] from rfl]
    simp only [List.foldl_cons, List.foldl_nil]
    split
    · rw [dstar_update_node_rhs _ _ m hmn, H3.2.2.2.2]
    · exact H3.2.2.2.2

/-- Witness for c9_notify_frame: on the 2 x 3 map with a wall at node 1,
notifying a change at node 3 does not touch node 5, and the notification
clears done while preserving g everywhere and rhs at node 5. -/
theorem c9_witness :
    dstar_notify_touches (dstar_init mapC3) 3 5 = false ∧
    (dstar_notify_change (dstar_init mapC3) 3).vis.done = 0 ∧
    (dstar_notify_change (dstar_init mapC3) 3).g = (dstar_init mapC3).g ∧
    (dstar_notify_change (dstar_init mapC3) 3).rhs 5 = (dstar_init mapC3).rhs 5 :=
  ⟨by decide, (c9_notify_frame (dstar_init mapC3) 3 5 (by decide)).1,
   (c9_notify_frame (dstar_init mapC3) 3 5 (by decide)).2.2.2.2.1,
   (c9_notify_frame (dstar_init mapC3) 3 5 (by decide)).2.2.2.2.2⟩

/-- Helper: the D* Lite path-trace loop never touches found or
path_cost. -/
theorem dstar_trace_go_pres (s : DStarState) :
    ∀ (fuel : Nat) (cur : Int) (vis : AlgoVis),
      (dstar_trace_go s fuel cur vis).found = vis.found ∧
      (dstar_trace_go s fuel cur vis).path_cost = vis.path_cost := by
  intro fuel
  induction fuel with
  | zero => intro cur vis; exact ⟨rfl, rfl⟩
  | succ n ih =>
    intro cur vis
    unfold dstar_trace_go
    split
    · dsimp only
      rw [(ih _ _).1, (ih _ _).2]
      constructor <;> (split <;> rfl)
    · split <;> exact ⟨rfl, rfl⟩

/-- Helper: dstar_trace_path always reports found = 1. -/
theorem dstar_trace_path_found (s : DStarState) :
    (dstar_trace_path s).2.vis.found = 1 := by
  unfold dstar_trace_path
  dsimp only
  rw [(dstar_trace_go_pres s _ _ _).1]

/-- Helper: dstar_trace_path commits the start node g-value as the path
cost. -/
theorem dstar_trace_path_cost (s : DStarState) :
    (dstar_trace_path s).2.vis.path_cost = s.g s.vis.start_node := by
  unfold dstar_trace_path
  dsimp only
  rw [(dstar_trace_go_pres s _ _ _).2]

set_option maxHeartbeats 4000000 in
/-- C3: the D* Lite replanning scenario on mapC3 is a code bug. The
initial run completes with found = 1 and cost 3; after the external
collaborator walls off cell 3 and notifies the engine, the very next step
takes the trace_path branch on stale g-values and commits done = 1,
found = 1, path_cost = 3, although the post-change map has no start-end
path — a fresh Dijkstra run on the post-change map reports found = 0.
Moreover the C trace loop (`while (cur != end && cur != -1)`) never
terminates there: the min-g successor walk oscillates between nodes 5 and
4, never reaching the end node 0 nor -1. -/
theorem c3_replan_diverges :
    ((runSteps dstar_step (dstar_init mapC3) 5).vis.done = 1 ∧
     (runSteps dstar_step (dstar_init mapC3) 5).vis.found = 1 ∧
     (runSteps dstar_step (dstar_init mapC3) 5).vis.path_cost = 3) ∧
    ((dstar_step dstar_c3_state).2.vis.done = 1 ∧
     (dstar_step dstar_c3_state).2.vis.found = 1 ∧
     (dstar_step dstar_c3_state).2.vis.path_cost = 3) ∧
    (∀ n, dstar_walk dstar_c3_state n = 5 ∨ dstar_walk dstar_c3_state n = 4) ∧
    (∀ n, dstar_walk dstar_c3_state n ≠ dstar_c3_state.vis.end_node ∧
        dstar_walk dstar_c3_state n ≠ -1) ∧
    ((runSteps dijkstra_step (dijkstra_init mapC3post) 4).vis.done = 1 ∧
     (runSteps dijkstra_step (dijkstra_init mapC3post) 4).vis.found = 0) := by
  have hw : ∀ k, dstar_walk dstar_c3_state (k + 1) =
      dstar_best_neighbor dstar_c3_state (dstar_walk dstar_c3_state k) :=
    fun k => rfl
  have h5 : dstar_best_neighbor dstar_c3_state 5 = 4 := by decide
  have h4 : dstar_best_neighbor dstar_c3_state 4 = 5 := by decide
  have hstart : dstar_walk dstar_c3_state 0 = 5 := by decide
  have hend : dstar_c3_state.vis.end_node = 0 := by decide
  have hosc : ∀ n, dstar_walk dstar_c3_state n = 5 ∨ dstar_walk dstar_c3_state n = 4 := by
    intro n
    induction n with
    | zero => exact Or.inl hstart
    | succ k ih =>
      rcases ih with h | h
      · right
        rw [hw, h]
        exact h5
      · left
        rw [hw, h]
        exact h4
  have htrace : dstar_step dstar_c3_state =
      dstar_trace_path { dstar_c3_state with vis := { dstar_c3_state.vis with
        steps := dstar_c3_state.vis.steps + 1 } } := by
    unfold dstar_step
    split
    · rename_i h
      exact absurd (by decide : dstar_c3_state.vis.done = 0) h
    · dsimp only
      split
      · rename_i h
        exact absurd h (by decide)
      · split
        · rfl
        · rename_i h
          exact absurd (by decide) h
  refine ⟨⟨by decide, by decide, by decide⟩, ⟨?_, ?_, ?_⟩, hosc, ?_, by decide, by decide⟩
  · rw [htrace, dstar_trace_path_done]
  · rw [htrace, dstar_trace_path_found]
  · rw [htrace, dstar_trace_path_cost]
    decide
  · intro n
    rcases hosc n with h | h <;> rw [h, hend] <;> exact ⟨by decide, by decide⟩
